import Mathlib

/-!
Verification development for the GPU-Miner mining orchestration core.

This file gives a shallow embedding, in Lean 4, of the parts of the
repository that the checked claims are about:

* `core/wallet_pool.py`   — per-device wallet pools (allocate / release /
  reuse / get / create / stats / pool file paths);
* `core/challenge_cache.py` — the 24h challenge cache (`register_challenge`);
* `core/database.py`      — solutions, solved-challenge sets and the
  persistent failed-solution store;
* `core/networking.py`    — `APIClient.submit_solution`, the background
  `SolutionSubmissionQueue` and the outcome classification of
  `_submit_solution_direct`;
* `core/response_processor.py` — `process_response` and its solution
  handling;
* `core/mining_coordinator.py` — `dispatch_job` with its challenge
  ordering, wallet-reuse search and creation fallback;
* `core/miner_manager.py` — the pool ids used by `_manage_mining`.

Modelling conventions: Python dicts become structures; timestamps
(ISO-8601 strings in the JSON files, whose lexicographic order agrees with
chronological order) become `Int` seconds; mutation of the per-pool JSON
file becomes explicit state passing of the pool's wallet list; results of
external calls (key generation, wallet registration with the coordinator,
consolidation, HTTP submission outcomes) are inputs to the embedded
functions.  Logging, terminal output and the multiprocessing queues carry
no state that the claims mention and are not modelled.
-/

/-- A wallet entry as stored in a pool JSON file (`core/wallet_pool.py`).
The fields are exactly the keys written by `create_wallet` /
`_normalize_pool`. -/
structure Wallet where
  address : String
  pubkey : String
  signing_key : String
  signature : String
  created_at : Int
  is_consolidated : Bool
  is_dev_wallet : Bool
  in_use : Bool
  current_challenge : Option String
  allocated_at : Option Int
  solved_challenges : List String
deriving DecidableEq, Inhabited

/-- A challenge entry as stored by the challenge cache
(`core/challenge_cache.py`): the fields returned by the coordinator API
plus the `discovered_at` / `expires_at` stamps added by
`register_challenge`. -/
structure Challenge where
  challenge_id : String
  difficulty : String
  no_pre_mine : String
  latest_submission : String
  no_pre_mine_hour : String
  discovered_at : Int
  expires_at : Int
deriving DecidableEq, Inhabited

/-- Pool identifiers (`PoolId` in `core/types.py`): an integer GPU device
id or a string name (`"cpu"` in the coordinator, `"cpu_0"`, `"cpu_1"`, …
in the miner manager). -/
inductive PoolId where
  | gpu (deviceId : Nat)
  | name (s : String)
deriving DecidableEq

/-- Worker type (`'gpu'` / `'cpu'` in the source). -/
inductive WorkerType where
  | gpu
  | cpu
deriving DecidableEq

/-- The JSON file backing a pool
(`WalletPool._get_pool_path`, `core/wallet_pool.py` lines 65-69). -/
def poolFilePath : PoolId → String
  | .gpu deviceId => "wallets_gpu_" ++ toString deviceId ++ ".json"
  | .name s => "wallets_" ++ s ++ ".json"

/-- Environment for one call of `WalletPool.create_wallet`: the freshly
generated key material together with the outcomes of the external calls
the function makes (`generate_wallet`/`sign_wallet_terms` success,
`api.register_wallet` success, immediate consolidation success). -/
structure FreshWallet where
  address : String
  pubkey : String
  signing_key : String
  signature : String
  genOk : Bool
  regOk : Bool
  consOk : Bool
deriving DecidableEq

/-- Value of a hex digit, as accepted by Python `int(s, 16)`. -/
def hexDigitVal? (c : Char) : Option Nat :=
  if '0' ≤ c ∧ c ≤ '9' then some (c.toNat - '0'.toNat)
  else if 'a' ≤ c ∧ c ≤ 'f' then some (c.toNat - 'a'.toNat + 10)
  else if 'A' ≤ c ∧ c ≤ 'F' then some (c.toNat - 'A'.toNat + 10)
  else none

/-- Parse a plain hexadecimal string, as Python `int(s, 16)` does on the
difficulty strings the program handles (`none` when the string is empty
or holds a non-hex character, where Python raises `ValueError`). -/
def parseHex? (s : String) : Option Nat :=
  if s.isEmpty then none
  else s.toList.foldl
    (fun acc c =>
      match acc, hexDigitVal? c with
      | some n, some d => some (n * 16 + d)
      | _, _ => none)
    (some 0)

/-- Total version of `parseHex?` used where the source applies
`int(c['difficulty'], 16)` (the source raises on invalid input; theorems
that depend on the parse carry a validity hypothesis). -/
def hexToNat (s : String) : Nat := (parseHex? s).getD 0

/-- The per-wallet allocation condition of `WalletPool.allocate_wallet`
(`core/wallet_pool.py` lines 304-321), written positively: the source
skips a wallet when its dev flag differs from `require_dev`, when it has
already solved the challenge, or when it is in use. -/
def allocOk (requireDev : Bool) (challengeId : String) (w : Wallet) : Bool :=
  w.is_dev_wallet == requireDev
    && !(w.solved_challenges.contains challengeId)
    && !w.in_use

/-- The field update `allocate_wallet` applies to the selected wallet
(`core/wallet_pool.py` lines 323-326). -/
def markAllocated (now : Int) (challengeId : String) (w : Wallet) : Wallet :=
  { w with in_use := true, current_challenge := some challengeId,
           allocated_at := some now }

/-- `WalletPool.allocate_wallet` (`core/wallet_pool.py` lines 286-333):
walk the pool in file order, skip wallets whose dev flag differs from
`require_dev`, that have solved this challenge, or that are in use; mark
the first remaining wallet as in use and persist; return `none` with the
pool unchanged when no wallet qualifies. -/
def allocateWallet (now : Int) (challengeId : String) (requireDev : Bool) :
    List Wallet → Option Wallet × List Wallet
  | [] => (none, [])
  | w :: ws =>
    if (requireDev && !w.is_dev_wallet) || (!requireDev && w.is_dev_wallet)
        || w.solved_challenges.contains challengeId || w.in_use then
      let r := allocateWallet now challengeId requireDev ws
      (r.1, w :: r.2)
    else
      let w' := markAllocated now challengeId w
      (some w', w' :: ws)

/-- `WalletPool.release_wallet` (`core/wallet_pool.py` lines 335-385):
clear `in_use` and `current_challenge` of the first wallet with the given
address; when `solved` and a challenge id is given, append it to
`solved_challenges` unless already present. -/
def releaseWallet (address : String) (challengeId : Option String)
    (solved : Bool) : List Wallet → List Wallet
  | [] => []
  | w :: ws =>
    if w.address == address then
      let w' := { w with in_use := false, current_challenge := none }
      let w'' :=
        if solved then
          match challengeId with
          | some cid =>
            if w'.solved_challenges.contains cid then w'
            else { w' with solved_challenges := w'.solved_challenges ++ [cid] }
          | none => w'
        else w'
      w'' :: ws
    else
      w :: releaseWallet address challengeId solved ws

/-- `WalletPool.reuse_wallet` (`core/wallet_pool.py` lines 577-607):
re-stamp the first wallet with the given address as in use for the new
challenge; `false` with the pool unchanged when the address is absent. -/
def reuseWallet (now : Int) (address : String) (challengeId : String) :
    List Wallet → Bool × List Wallet
  | [] => (false, [])
  | w :: ws =>
    if w.address == address then
      (true, { w with in_use := true, current_challenge := some challengeId,
                      allocated_at := some now } :: ws)
    else
      let r := reuseWallet now address challengeId ws
      (r.1, w :: r.2)

/-- `WalletPool.get_wallet` (`core/wallet_pool.py` lines 609-621):
snapshot read of the first wallet with the given address. -/
def getWallet (address : String) (pool : List Wallet) : Option Wallet :=
  pool.find? (fun w => w.address == address)

/-- Set `is_consolidated` of the first wallet with the given address, as
the post-consolidation update inside `create_wallet`
(`core/wallet_pool.py` lines 443-452) does. -/
def setConsolidated (address : String) : List Wallet → List Wallet
  | [] => []
  | w :: ws =>
    if w.address == address then { w with is_consolidated := true } :: ws
    else w :: setConsolidated address ws

/-- The pool entry `create_wallet` appends
(`core/wallet_pool.py` lines 402-415). -/
def mkPoolWallet (now : Int) (f : FreshWallet) (isDev : Bool) : Wallet :=
  { address := f.address, pubkey := f.pubkey, signing_key := f.signing_key,
    signature := f.signature, created_at := now, is_consolidated := false,
    is_dev_wallet := isDev, in_use := false, current_challenge := none,
    allocated_at := none, solved_challenges := [] }

/-- `WalletPool.create_wallet` (`core/wallet_pool.py` lines 387-454):
abort with the pool unchanged when generation/signing or registration
fails; otherwise append the new entry, and when the immediate
consolidation succeeds mark it consolidated (the returned dict is mutated
by `wallet_utils.consolidate_wallet` in that case). -/
def createWallet (now : Int) (f : FreshWallet) (isDev : Bool)
    (pool : List Wallet) : Option Wallet × List Wallet :=
  if !f.genOk then (none, pool)
  else if !f.regOk then (none, pool)
  else
    let wd := mkPoolWallet now f isDev
    let pool1 := pool ++ [wd]
    if f.consOk then
      (some { wd with is_consolidated := true }, setConsolidated f.address pool1)
    else
      (some wd, pool1)

/-- Modelled from the spec: `create_batch(pool_id, count, is_dev_wallet)
-> int` — "like `create` but amortises I/O" (spec section 4.1).  The
method `create_wallets_batch` is called at `core/mining_coordinator.py`
line 397 but no definition of it exists under the sources; following the
spec it performs `count` single creations and returns how many
succeeded.  Each attempted creation consumes one `FreshWallet`
environment entry. -/
def createWalletsBatchAux (now : Int) (isDev : Bool) :
    List FreshWallet → List Wallet → Nat × List Wallet
  | [], pool => (0, pool)
  | f :: fs, pool =>
    match createWallet now f isDev pool with
    | (some _, pool') =>
      let r := createWalletsBatchAux now isDev fs pool'
      (r.1 + 1, r.2)
    | (none, pool') => createWalletsBatchAux now isDev fs pool'

/-- Modelled from the spec: entry point of the batch creation, taking the
requested `count` (the coordinator passes 20). -/
def createWalletsBatch (now : Int) (env : List FreshWallet) (count : Nat)
    (isDev : Bool) (pool : List Wallet) : Nat × List Wallet :=
  createWalletsBatchAux now isDev (env.take count) pool

/-- Pool statistics (`WalletPool.get_pool_stats`,
`core/wallet_pool.py` lines 534-551). -/
structure PoolStats where
  total : Nat
  available : Nat
  inUse : Nat
  dev_total : Nat
  dev_available : Nat
  dev_in_use : Nat
deriving DecidableEq

/-- `WalletPool.get_pool_stats` (`core/wallet_pool.py` lines 534-551). -/
def getPoolStats (pool : List Wallet) : PoolStats :=
  let userWallets := pool.filter (fun w => !w.is_dev_wallet)
  let devWallets := pool.filter (fun w => w.is_dev_wallet)
  { total := userWallets.length,
    available := (userWallets.filter (fun w => !w.in_use)).length,
    inUse := (userWallets.filter (fun w => w.in_use)).length,
    dev_total := devWallets.length,
    dev_available := (devWallets.filter (fun w => !w.in_use)).length,
    dev_in_use := (devWallets.filter (fun w => w.in_use)).length }

/-- Seconds in one hour (the source computes with `timedelta(hours=...)`). -/
def hourSeconds : Int := 3600

/-- `ChallengeCache.register_challenge` (`core/challenge_cache.py` lines
39-69): return the cache unchanged when a stored entry carries the same
`challenge_id`; otherwise append the complete challenge object stamped
with `discovered_at = now` and `expires_at = now + 24h`. -/
def registerChallenge (now : Int) (cache : List Challenge)
    (ch : Challenge) : List Challenge :=
  if cache.any (fun c => c.challenge_id == ch.challenge_id) then cache
  else cache ++ [{ ch with discovered_at := now,
                           expires_at := now + 24 * hourSeconds }]

/-- A solution record (`core/database.py` `add_solution`, lines 159-194). -/
structure Solution where
  challenge_id : String
  nonce : String
  wallet_address : String
  difficulty : String
  is_dev_solution : Bool
  timestamp : Int
  status : String
deriving DecidableEq

/-- A persisted failed solution
(`core/database.py` `add_failed_solution`, lines 295-331). -/
structure FailedSolution where
  wallet_address : String
  challenge_id : String
  nonce : String
  difficulty : String
  is_dev_solution : Bool
  timestamp : Int
  retry_count : Nat
  last_retry : Option Int
deriving DecidableEq

/-- `SOLUTION_RETRY_EXPIRY_HOURS` (`core/constants.py` line 43). -/
def solutionRetryExpiryHours : Int := 24

/-- `SOLUTION_RETRY_INTERVAL_HOURS` (`core/constants.py` line 46). -/
def solutionRetryIntervalHours : Int := 1

/-- `MAX_IN_MEMORY_SOLUTIONS` (`core/constants.py` line 53). -/
def maxInMemorySolutions : Nat := 10000

/-- `TRIM_SOLUTIONS_TO` (`core/constants.py` line 56). -/
def trimSolutionsTo : Nat := 5000

/-- `Database._load_failed_solutions` (`core/database.py` lines 63-88):
on loading the persisted store, keep only entries whose timestamp is
strictly later than `now - 24h`. -/
def loadFailedSolutions (now : Int) (data : List FailedSolution) :
    List FailedSolution :=
  data.filter (fun s => now - solutionRetryExpiryHours * hourSeconds < s.timestamp)

/-- The per-entry filter of `Database.get_pending_retries`
(`core/database.py` lines 347-353): an entry is skipped only when its
`last_retry` stamp is present and less than the retry interval old. -/
def dueForRetry (now : Int) (s : FailedSolution) : Bool :=
  match s.last_retry with
  | some lastRetry =>
    !(now - lastRetry < solutionRetryIntervalHours * hourSeconds)
  | none => true

/-- `Database.get_pending_retries` (`core/database.py` lines 333-354). -/
def getPendingRetries (now : Int) (failed : List FailedSolution) :
    List FailedSolution :=
  failed.filter (dueForRetry now)

/-- `Database.add_failed_solution` (`core/database.py` lines 295-331):
append a new entry stamped `now` unless one with the same
`(challenge_id, nonce)` already exists. -/
def addFailedSolution (now : Int) (walletAddress challengeId nonce
    difficulty : String) (isDev : Bool) (failed : List FailedSolution) :
    List FailedSolution :=
  if failed.any
      (fun s => s.challenge_id == challengeId && s.nonce == nonce) then
    failed
  else
    failed ++ [{ wallet_address := walletAddress,
                 challenge_id := challengeId, nonce := nonce,
                 difficulty := difficulty, is_dev_solution := isDev,
                 timestamp := now, retry_count := 0, last_retry := none }]

/-- `Database.add_solution` (`core/database.py` lines 159-194): append a
record with status `"submitted"`, then trim to the most recent
`TRIM_SOLUTIONS_TO` entries when the limit is exceeded. -/
def addSolution (now : Int) (challengeId nonce walletAddress
    difficulty : String) (isDev : Bool) (sols : List Solution) :
    List Solution :=
  let sols' := sols ++ [{ challenge_id := challengeId, nonce := nonce,
                          wallet_address := walletAddress,
                          difficulty := difficulty, is_dev_solution := isDev,
                          timestamp := now, status := "submitted" }]
  if maxInMemorySolutions < sols'.length then
    sols'.drop (sols'.length - trimSolutionsTo)
  else sols'

/-- `Database.update_solution_status` (`core/database.py` lines 196-209):
the source walks `reversed(self.solutions)` and updates the first match,
i.e. the last matching record in list order. -/
def updateSolutionStatus (challengeId nonce status : String) :
    List Solution → List Solution
  | [] => []
  | s :: rest =>
    if rest.any (fun t => t.challenge_id == challengeId && t.nonce == nonce) then
      s :: updateSolutionStatus challengeId nonce status rest
    else if s.challenge_id == challengeId && s.nonce == nonce then
      { s with status := status } :: rest
    else
      s :: rest

/-- `Database.mark_challenge_solved` (`core/database.py` lines 211-222):
the per-wallet solved set, modelled as an association list of
duplicate-free challenge lists. -/
def markSolved (walletAddress challengeId : String) :
    List (String × List String) → List (String × List String)
  | [] => [(walletAddress, [challengeId])]
  | (a, s) :: rest =>
    if a == walletAddress then
      (a, if s.contains challengeId then s else s ++ [challengeId]) :: rest
    else
      (a, s) :: markSolved walletAddress challengeId rest

/-- The in-memory database state the claims touch
(`Database` in `core/database.py`). -/
structure DbState where
  solutions : List Solution
  solvedChallenges : List (String × List String)
  failedSolutions : List FailedSolution
deriving DecidableEq

/-- One entry of the background submission queue
(`SolutionSubmissionQueue.submit`, `core/networking.py` lines 60-77). -/
structure Submission where
  wallet_address : String
  challenge_id : String
  nonce : String
  created_at : Int
  attempts : Nat
deriving DecidableEq

/-- The entry `SolutionSubmissionQueue.submit` enqueues
(`core/networking.py` lines 69-76). -/
def mkSubmission (now : Int) (walletAddress challengeId nonce : String) :
    Submission :=
  { wallet_address := walletAddress, challenge_id := challengeId,
    nonce := nonce, created_at := now, attempts := 0 }

/-- `SolutionSubmissionQueue.submit` (`core/networking.py` lines 60-77). -/
def queueSubmit (now : Int) (q : List Submission)
    (walletAddress challengeId nonce : String) : List Submission :=
  q ++ [mkSubmission now walletAddress challengeId nonce]

/-- `APIClient.submit_solution` (`core/networking.py` lines 311-333): hand
the solution to the background queue and immediately return
`(True, False)`; no HTTP request happens in this call. -/
def submitSolution (now : Int) (q : List Submission)
    (walletAddress challengeId nonce : String) :
    (Bool × Bool) × List Submission :=
  ((true, false), queueSubmit now q walletAddress challengeId nonce)

/-- Result of one direct HTTP submission as seen by
`_submit_solution_direct`: a 2xx JSON response, an HTTP error status
propagated by `_request`, or any other failure (timeouts, connection
errors, `APIError` after retries — including 5xx and 429, which
`_request` re-raises as `APIError` after its single attempt). -/
inductive HttpResult where
  | ok
  | httpError (status : Nat)
  | netError
deriving DecidableEq

/-- Outcome classification of `APIClient._submit_solution_direct`
(`core/networking.py` lines 335-368): `(success, is_fatal)` with HTTP 400
and 409 fatal and every other failure transient. -/
def classifySubmission : HttpResult → Bool × Bool
  | .ok => (true, false)
  | .httpError status =>
    if status == 400 || status == 409 then (false, true) else (false, false)
  | .netError => (false, false)

/-- Default lifetime of a queued submission in hours
(`retry_hours`, from `SOLUTION_RETRY_EXPIRY_HOURS`). -/
def queueRetryHours : Int := 24

/-- Fixed transient-retry interval of the submission queue
(`retry_delay = 300` in `core/networking.py` line 130). -/
def queueRetryDelaySeconds : Int := 300

/-- One pass of the retry loop inside
`SolutionSubmissionQueue._process_queue` (`core/networking.py` lines
98-139), processing every queued entry once at time `now`; the outcome of
each direct submission is given by the oracle `submit`.  Returns the
entries retained for the next pass and the list of entries on which a
direct submission was attempted during this pass. -/
def processQueueStep (now : Int) (submit : Submission → HttpResult) :
    List Submission → List Submission × List Submission
  | [] => ([], [])
  | sub :: rest =>
    let age := now - sub.created_at
    if queueRetryHours * hourSeconds < age then
      processQueueStep now submit rest
    else
      let sub1 := { sub with attempts := sub.attempts + 1 }
      let outcome := classifySubmission (submit sub1)
      let r := processQueueStep now submit rest
      if outcome.1 then (r.1, sub1 :: r.2)
      else if outcome.2 then (r.1, sub1 :: r.2)
      else
        let sub2 := { sub1 with
          created_at := now - age + queueRetryDelaySeconds }
        (sub2 :: r.1, sub1 :: r.2)

/-- A worker response (`MineResponse` in `core/types.py`), restricted to
the fields the response path reads (`hashes`/`duration` only feed the
floating-point hashrate smoothing, which no claim mentions). -/
structure MineResponse where
  request_id : Nat
  found : Bool
  nonce : Nat
  error : Option String
deriving DecidableEq

/-- `mining_utils.format_nonce_hex` (`core/mining_utils.py` lines
91-105): lower-case hex, zero-padded on the left to 16 characters. -/
def formatNonceHex (nonce : Nat) : String :=
  let ds := Nat.toDigits 16 nonce
  ⟨List.replicate (16 - ds.length) '0' ++ ds⟩

/-- Combined state threaded through `ResponseProcessor.process_response`:
the wallet list of the worker's pool, the database, the background
submission queue, and the session counters
(`core/response_processor.py` lines 30-36). -/
structure ProcState where
  pool : List Wallet
  db : DbState
  subQueue : List Submission
  sessionSolutions : Nat
  devSessionSolutions : Nat
  walletSessionSolutions : List (String × Nat)
deriving DecidableEq

/-- The per-wallet session counter bump of
`_handle_successful_submission` (`core/response_processor.py` lines
182-184): insert at 0 when absent, then increment. -/
def bumpWalletSolutions (walletAddress : String) :
    List (String × Nat) → List (String × Nat)
  | [] => [(walletAddress, 1)]
  | (a, n) :: rest =>
    if a == walletAddress then (a, n + 1) :: rest
    else (a, n) :: bumpWalletSolutions walletAddress rest

/-- `ResponseProcessor._handle_successful_submission`
(`core/response_processor.py` lines 152-184). -/
def handleSuccessfulSubmission (now : Int) (st : ProcState)
    (walletAddress challengeId nonceHex : String) (isDev : Bool)
    (currentChallenge : Challenge) : ProcState :=
  { st with
    pool := releaseWallet walletAddress (some challengeId) true st.pool,
    db := { st.db with
      solvedChallenges :=
        markSolved walletAddress challengeId st.db.solvedChallenges,
      solutions :=
        updateSolutionStatus challengeId nonceHex "accepted"
          (addSolution now challengeId nonceHex walletAddress
            currentChallenge.difficulty isDev st.db.solutions) },
    sessionSolutions :=
      if isDev then st.sessionSolutions else st.sessionSolutions + 1,
    devSessionSolutions :=
      if isDev then st.devSessionSolutions + 1 else st.devSessionSolutions,
    walletSessionSolutions :=
      if isDev then st.walletSessionSolutions
      else bumpWalletSolutions walletAddress st.walletSessionSolutions }

/-- `ResponseProcessor._handle_failed_submission`
(`core/response_processor.py` lines 186-223). -/
def handleFailedSubmission (now : Int) (st : ProcState)
    (walletAddress challengeId nonceHex : String) (isDev isFatal : Bool)
    (currentChallenge : Challenge) : ProcState :=
  if isFatal then
    { st with
      pool := releaseWallet walletAddress (some challengeId) true st.pool,
      db := { st.db with
        solvedChallenges :=
          markSolved walletAddress challengeId st.db.solvedChallenges,
        solutions :=
          updateSolutionStatus challengeId nonceHex "rejected"
            (addSolution now challengeId nonceHex walletAddress
              currentChallenge.difficulty isDev st.db.solutions) } }
  else
    { st with
      pool := releaseWallet walletAddress (some challengeId) false st.pool,
      db := { st.db with
        failedSolutions :=
          addFailedSolution now walletAddress challengeId nonceHex
            currentChallenge.difficulty isDev st.db.failedSolutions } }

/-- `ResponseProcessor._handle_solution`
(`core/response_processor.py` lines 97-150): format the nonce, hand the
solution to `api.submit_solution`, and branch on its `(success, is_fatal)`
result. -/
def handleSolution (now : Int) (st : ProcState) (resp : MineResponse)
    (walletAddress challengeId : String) (isDev : Bool)
    (currentChallenge : Challenge) : ProcState :=
  let nonceHex := formatNonceHex resp.nonce
  let submitted :=
    submitSolution now st.subQueue walletAddress challengeId nonceHex
  let st1 := { st with subQueue := submitted.2 }
  if submitted.1.1 then
    handleSuccessfulSubmission now st1 walletAddress challengeId nonceHex
      isDev currentChallenge
  else
    handleFailedSubmission now st1 walletAddress challengeId nonceHex
      isDev submitted.1.2 currentChallenge

/-- The pool id computed by `ResponseProcessor.process_response`
(`core/response_processor.py` line 65). -/
def responseProcessorPoolId (workerType : WorkerType) (workerId : Nat) :
    PoolId :=
  match workerType with
  | .cpu => .name "cpu"
  | .gpu => .gpu workerId

/-- `ResponseProcessor.process_response`
(`core/response_processor.py` lines 38-95), without the floating-point
hashrate update (`_update_hashrate` touches none of the state above). -/
def processResponse (now : Int) (st : ProcState) (resp : MineResponse)
    (walletAddress challengeId : String) (isDev : Bool)
    (currentChallenge : Challenge) (keepWalletOnFail : Bool) : ProcState :=
  match resp.error with
  | some _ =>
    { st with
      pool := releaseWallet walletAddress (some challengeId) false st.pool }
  | none =>
    if resp.found then
      handleSolution now st resp walletAddress challengeId isDev
        currentChallenge
    else
      if !isDev && !keepWalletOnFail then
        { st with
          pool :=
            releaseWallet walletAddress (some challengeId) false st.pool }
      else st

/-- Per-worker bookkeeping of `MiningCoordinator`
(`core/mining_coordinator.py` lines 42-51), as association lists keyed by
worker id. -/
structure CoordState where
  gpuStickyWallets : List (Nat × String)
  cpuStickyWallets : List (Nat × String)
  cpuPendingDevFee : List (Nat × Bool)
  gpuCurrentChallenges : List (Nat × String)
  cpuCurrentChallenges : List (Nat × String)
deriving DecidableEq

/-- The pool id computed by `MiningCoordinator.dispatch_job`
(`core/mining_coordinator.py` line 78): the shared `"cpu"` pool for CPU
workers, the device id for GPU workers. -/
def dispatchPoolId (workerType : WorkerType) (workerId : Nat) : PoolId :=
  match workerType with
  | .cpu => .name "cpu"
  | .gpu => .gpu workerId

/-- The `desired_dev_wallet` computation of `dispatch_job`
(`core/mining_coordinator.py` lines 80-90): for CPU workers a pending
dev-fee flag forces a dev wallet, but an existing sticky wallet defers
the dev fee again. -/
def desiredDevWallet (st : CoordState) (workerType : WorkerType)
    (workerId : Nat) (useDevWallet : Bool) : Bool :=
  match workerType with
  | .gpu => useDevWallet
  | .cpu =>
    let pending := (st.cpuPendingDevFee.lookup workerId).getD false
    let desired := useDevWallet || pending
    if (st.cpuStickyWallets.lookup workerId).isSome && desired then false
    else desired

/-- The second `sticky_address` computation of `dispatch_job`
(`core/mining_coordinator.py` lines 93-99): the first binding is reset to
`None` and re-read from the per-worker-type map only when no dev wallet
is desired. -/
def dispatchStickyAddress (st : CoordState) (workerType : WorkerType)
    (workerId : Nat) (desiredDev : Bool) : Option String :=
  if desiredDev then none
  else
    match workerType with
    | .gpu => st.gpuStickyWallets.lookup workerId
    | .cpu => st.cpuStickyWallets.lookup workerId

/-- The worker's current challenge used for dev-wallet ROM stickiness
(`core/mining_coordinator.py` lines 248-254). -/
def currentChallengeOf (st : CoordState) (workerType : WorkerType)
    (workerId : Nat) : Option String :=
  match workerType with
  | .gpu => st.gpuCurrentChallenges.lookup workerId
  | .cpu => st.cpuCurrentChallenges.lookup workerId

/-- The stable ascending sort of `dispatch_job`
(`core/mining_coordinator.py` line 107):
`available_challenges.sort(key=lambda c: c.get('discovered_at', ''))`. -/
def sortByDiscovered (l : List Challenge) : List Challenge :=
  l.mergeSort (fun a b => decide (a.discovered_at ≤ b.discovered_at))

/-- The challenge ordering of `dispatch_job`
(`core/mining_coordinator.py` lines 105-130): sort ascending by
`discovered_at`; when the last challenge's parsed difficulty strictly
exceeds the first challenge's, move the challenges whose difficulty
equals the first challenge's difficulty to the front, keeping relative
order. -/
def orderChallenges (l : List Challenge) : List Challenge :=
  match sortByDiscovered l with
  | [] => []
  | first :: rest =>
    let sorted := first :: rest
    let oldestDifficulty := hexToNat first.difficulty
    let newestDifficulty := hexToNat (sorted.getLastD first).difficulty
    if oldestDifficulty < newestDifficulty then
      let lower := sorted.filter
        (fun c => hexToNat c.difficulty == oldestDifficulty)
      let higher := sorted.filter
        (fun c => !(hexToNat c.difficulty == oldestDifficulty))
      if !lower.isEmpty then lower ++ higher else sorted
    else sorted

/-- `MiningCoordinator._allocate_dev_wallet`
(`core/mining_coordinator.py` lines 269-343): try the current challenge
(same ROM), then the requested challenge; when creation is allowed and not
every existing dev wallet is busy, create one dev wallet (environment
`devFresh`; `none` models a generation failure) and retry. -/
def allocateDevWallet (now : Int) (challengeId : String)
    (currentChallengeId : Option String) (allowCreation : Bool)
    (devFresh : Option FreshWallet) (pool : List Wallet) :
    Option Wallet × List Wallet :=
  let step1 :=
    match currentChallengeId with
    | some cur =>
      if cur == challengeId then allocateWallet now cur true pool
      else (none, pool)
    | none => (none, pool)
  match step1 with
  | (some w, pool') => (some w, pool')
  | (none, pool1) =>
    match allocateWallet now challengeId true pool1 with
    | (some w, pool') => (some w, pool')
    | (none, pool2) =>
      if !allowCreation then (none, pool2)
      else
        let stats := getPoolStats pool2
        if 0 < stats.dev_total && stats.dev_available == 0 then
          (none, pool2)
        else
          match devFresh with
          | none => (none, pool2)
          | some f =>
            match createWallet now f true pool2 with
            | (none, pool3) => (none, pool3)
            | (some _, pool3) => allocateWallet now challengeId true pool3

/-- The sticky-wallet block of `MiningCoordinator._allocate_user_wallet`
(`core/mining_coordinator.py` lines 355-381): when the worker's sticky
wallet exists and has not solved the challenge, return it, re-stamping
its current challenge through `reuse_wallet` when it changed; `none`
means the source falls through to plain allocation.  The returned wallet
is the `get_wallet` snapshot with `current_challenge` patched, exactly as
the source mutates the loaded dict. -/
def stickyReuse (now : Int) (challengeId : String)
    (stickyAddress : Option String) (pool : List Wallet) :
    Option (Option Wallet × List Wallet) :=
  match stickyAddress with
  | none => none
  | some addr =>
    match getWallet addr pool with
    | none => none
    | some w =>
      if w.solved_challenges.contains challengeId then none
      else if w.current_challenge ≠ some challengeId then
        some (some { w with current_challenge := some challengeId },
              (reuseWallet now addr challengeId pool).2)
      else some (some w, pool)

/-- `MiningCoordinator._allocate_user_wallet`
(`core/mining_coordinator.py` lines 345-408): sticky reuse, then plain
allocation, then — only when creation is allowed — a batch of 20 wallets
for a GPU pool or a single wallet for the CPU pool, followed by a final
allocation.  `userEnv` supplies the creation environment; the CPU branch
consumes its head (an empty list models a generation failure). -/
def allocateUserWallet (now : Int) (challenge : Challenge)
    (stickyAddress : Option String) (allowCreation : Bool)
    (isGpuPool : Bool) (userEnv : List FreshWallet) (pool : List Wallet) :
    Option Wallet × List Wallet :=
  let challengeId := challenge.challenge_id
  match stickyReuse now challengeId stickyAddress pool with
  | some r => r
  | none =>
    match allocateWallet now challengeId false pool with
    | (some w, pool') => (some w, pool')
    | (none, pool1) =>
      if !allowCreation then (none, pool1)
      else if isGpuPool then
        let batch := createWalletsBatch now userEnv 20 false pool1
        if 0 < batch.1 then allocateWallet now challengeId false batch.2
        else (none, batch.2)
      else
        match userEnv with
        | [] => (none, pool1)
        | f :: _ =>
          match createWallet now f false pool1 with
          | (none, pool2) => (none, pool2)
          | (some _, pool2) => allocateWallet now challengeId false pool2

/-- `MiningCoordinator._select_wallet`
(`core/mining_coordinator.py` lines 222-267): dev path first when a dev
wallet is desired, falling back to a user wallet when creation is allowed
and the dev path yields nothing. -/
def selectWallet (now : Int) (challenge : Challenge) (useDevWallet : Bool)
    (stickyAddress : Option String) (currentChallengeId : Option String)
    (isGpuPool : Bool) (allowCreation : Bool)
    (devFresh : Option FreshWallet) (userEnv : List FreshWallet)
    (pool : List Wallet) : (Option Wallet × Bool) × List Wallet :=
  if useDevWallet then
    match allocateDevWallet now challenge.challenge_id currentChallengeId
        allowCreation devFresh pool with
    | (some w, pool') => ((some w, true), pool')
    | (none, pool') =>
      if !allowCreation then ((none, false), pool')
      else
        let r := allocateUserWallet now challenge stickyAddress
          allowCreation isGpuPool userEnv pool'
        ((r.1, false), r.2)
  else
    let r := allocateUserWallet now challenge stickyAddress allowCreation
      isGpuPool userEnv pool
    ((r.1, false), r.2)

/-- The wallet-reuse search loop of `dispatch_job`
(`core/mining_coordinator.py` lines 132-149): try `_select_wallet` with
`allow_creation=False` on each challenge in order and stop at the first
success, remembering the selected challenge and dev flag. -/
def walletReuseSearch (now : Int) (useDevWallet : Bool)
    (stickyAddress : Option String) (currentChallengeId : Option String)
    (isGpuPool : Bool) (devFresh : Option FreshWallet)
    (userEnv : List FreshWallet) (pool : List Wallet) :
    List Challenge → Option (Wallet × Challenge × Bool) × List Wallet
  | [] => (none, pool)
  | c :: cs =>
    match selectWallet now c useDevWallet stickyAddress currentChallengeId
        isGpuPool false devFresh userEnv pool with
    | ((some w, isDev), pool') => (some (w, c, isDev), pool')
    | ((none, _), pool') =>
      walletReuseSearch now useDevWallet stickyAddress currentChallengeId
        isGpuPool devFresh userEnv pool' cs

/-- `MiningCoordinator.dispatch_job`
(`core/mining_coordinator.py` lines 53-220), returning the
`(wallet, challenge_id, is_dev)` result together with the final pool
state.  The post-selection bookkeeping (sticky-map updates, logging,
request building and queueing, the ROM-key LRU) does not touch the pool
or the returned tuple and is omitted. -/
def dispatchJob (now : Int) (st : CoordState) (workerType : WorkerType)
    (workerId : Nat) (availableChallenges : List Challenge)
    (useDevWallet : Bool) (devFresh : Option FreshWallet)
    (userEnv : List FreshWallet) (pool : List Wallet) :
    Option (Wallet × String × Bool) × List Wallet :=
  let desiredDev := desiredDevWallet st workerType workerId useDevWallet
  let stickyAddress := dispatchStickyAddress st workerType workerId desiredDev
  let currentChallengeId := currentChallengeOf st workerType workerId
  let isGpuPool := workerType == WorkerType.gpu
  if availableChallenges.isEmpty then (none, pool)
  else
    let ordered := orderChallenges availableChallenges
    match walletReuseSearch now desiredDev stickyAddress currentChallengeId
        isGpuPool devFresh userEnv pool ordered with
    | (some (w, c, isDev), pool') => (some (w, c.challenge_id, isDev), pool')
    | (none, pool1) =>
      match ordered with
      | [] => (none, pool1)
      | oldest :: _ =>
        match selectWallet now oldest desiredDev stickyAddress
            currentChallengeId isGpuPool true devFresh userEnv pool1 with
        | ((some w, isDev), pool2) =>
          (some (w, oldest.challenge_id, isDev), pool2)
        | ((none, _), pool2) => (none, pool2)

/-- The pool id under which `MinerManager._manage_mining` performs the
CPU dispatch wallet operations (`core/miner_manager.py` line 485):
`pool_id = f"cpu_{free_cpu_id}"`. -/
def managerCpuDispatchPoolId (freeCpuId : Nat) : PoolId :=
  .name ("cpu_" ++ toString freeCpuId)

/-- The pool id under which `MinerManager._process_response` releases a
worker's wallet (`core/miner_manager.py` line 578):
`pool_id = f"cpu_{worker_id}" if worker_type == 'cpu' else worker_id`. -/
def managerResponsePoolId (workerType : WorkerType) (workerId : Nat) :
    PoolId :=
  match workerType with
  | .cpu => .name ("cpu_" ++ toString workerId)
  | .gpu => .gpu workerId

/-- Relation between a wallet and the result of a possible
`is_consolidated` update on it: the consolidation bookkeeping inside
`create_wallet` touches no other field. -/
def flipEq (v w : Wallet) : Prop :=
  w = v ∨ w = { v with is_consolidated := true }

/-- The attempt-counter bump of `_process_queue`
(`core/networking.py` line 111). -/
def bumpAttempt (s : Submission) : Submission :=
  { s with attempts := s.attempts + 1 }

/-- Expiry test of a queued submission at time `now`
(`core/networking.py` lines 100-108). -/
def submissionExpired (now : Int) (s : Submission) : Bool :=
  queueRetryHours * hourSeconds < now - s.created_at

/-- A queued submission whose direct submission outcome is transient
(neither success nor fatal) under the outcome oracle. -/
def submissionTransient (submit : Submission → HttpResult)
    (s : Submission) : Bool :=
  !(classifySubmission (submit s)).1 && !(classifySubmission (submit s)).2


/-! ### Helper lemmas about the wallet pool operations -/

/-- Boolean identity behind the skip conditions of `allocate_wallet`. -/
theorem allocSkipCond (b1 b2 b3 b4 : Bool) :
    ((b2 && !b1) || (!b2 && b1) || b3 || b4)
      = !((b1 == b2) && !b3 && !b4) := by
  cases b1 <;> cases b2 <;> cases b3 <;> cases b4 <;> rfl

/-- The skip condition of `allocate_wallet` is the negation of
`allocOk`. -/
theorem allocSkip_eq (rd : Bool) (cid : String) (w : Wallet) :
    ((rd && !w.is_dev_wallet) || (!rd && w.is_dev_wallet)
      || w.solved_challenges.contains cid || w.in_use)
      = !allocOk rd cid w := by
  simpa [allocOk] using
    allocSkipCond w.is_dev_wallet rd (w.solved_challenges.contains cid)
      w.in_use

/-- Unfolding of `allocateWallet` on a non-empty pool, phrased through
`allocOk`. -/
theorem allocateWallet_cons_eq (now : Int) (cid : String) (rd : Bool)
    (w : Wallet) (ws : List Wallet) :
    allocateWallet now cid rd (w :: ws) =
      if allocOk rd cid w then
        (some (markAllocated now cid w), markAllocated now cid w :: ws)
      else
        ((allocateWallet now cid rd ws).1,
          w :: (allocateWallet now cid rd ws).2) := by
  by_cases h : allocOk rd cid w
  · have hskip : ((rd && !w.is_dev_wallet) || (!rd && w.is_dev_wallet)
        || w.solved_challenges.contains cid || w.in_use) = false := by
      rw [allocSkip_eq, h]; rfl
    simp only [allocateWallet, hskip]
    simp [h]
  · have hb : allocOk rd cid w = false := by
      revert h; cases allocOk rd cid w <;> simp
    have hskip : ((rd && !w.is_dev_wallet) || (!rd && w.is_dev_wallet)
        || w.solved_challenges.contains cid || w.in_use) = true := by
      rw [allocSkip_eq, hb]; rfl
    simp only [allocateWallet, hskip]
    simp [hb]

/-- Allocation returns `none` exactly when no wallet in the pool
satisfies the allocation condition. -/
theorem allocateWallet_none_iff (now : Int) (cid : String) (rd : Bool)
    (pool : List Wallet) :
    (allocateWallet now cid rd pool).1 = none ↔
      ∀ w ∈ pool, allocOk rd cid w = false := by
  induction pool with
  | nil => simp [allocateWallet]
  | cons w ws ih =>
    by_cases h : allocOk rd cid w
    · simp [allocateWallet_cons_eq, h]
    · have hb : allocOk rd cid w = false := by
        revert h; cases allocOk rd cid w <;> simp
      simp [allocateWallet_cons_eq, hb, ih]

/-- A failed allocation leaves the pool unchanged. -/
theorem allocateWallet_none_eq (now : Int) (cid : String) (rd : Bool)
    (pool : List Wallet)
    (h : (allocateWallet now cid rd pool).1 = none) :
    allocateWallet now cid rd pool = (none, pool) := by
  induction pool with
  | nil => rfl
  | cons w ws ih =>
    have hall := (allocateWallet_none_iff now cid rd (w :: ws)).1 h
    have hw : allocOk rd cid w = false := hall w (by simp)
    have htail : (allocateWallet now cid rd ws).1 = none := by
      rw [allocateWallet_none_iff]
      exact fun v hv => hall v (by simp [hv])
    simp [allocateWallet_cons_eq, hw, ih htail]

/-- Allocation skips an all-failing prefix. -/
theorem allocateWallet_append (now : Int) (cid : String) (rd : Bool)
    (l₁ l₂ : List Wallet) (h : ∀ w ∈ l₁, allocOk rd cid w = false) :
    allocateWallet now cid rd (l₁ ++ l₂) =
      ((allocateWallet now cid rd l₂).1,
        l₁ ++ (allocateWallet now cid rd l₂).2) := by
  induction l₁ with
  | nil => simp
  | cons w ws ih =>
    have hw : allocOk rd cid w = false := h w (by simp)
    simp [allocateWallet_cons_eq, hw, ih (fun v hv => h v (by simp [hv]))]

/-- `flipEq` is reflexive. -/
theorem flipEq_refl (w : Wallet) : flipEq w w := Or.inl rfl

/-- `flipEq` is transitive (flipping the flag twice is flipping once). -/
theorem flipEq_trans {u v w : Wallet} (h1 : flipEq u v) (h2 : flipEq v w) :
    flipEq u w := by
  rcases h1 with rfl | rfl
  · exact h2
  · rcases h2 with rfl | rfl
    · exact Or.inr rfl
    · exact Or.inr rfl

/-- `flipEq` preserves every field the allocation logic reads. -/
theorem flipEq_fields {v w : Wallet} (h : flipEq v w) :
    w.address = v.address ∧ w.is_dev_wallet = v.is_dev_wallet ∧
      w.in_use = v.in_use ∧ w.solved_challenges = v.solved_challenges := by
  rcases h with rfl | rfl <;> exact ⟨rfl, rfl, rfl, rfl⟩

/-- `allocOk` is invariant under `flipEq`. -/
theorem flipEq_allocOk (rd : Bool) (cid : String) {v w : Wallet}
    (h : flipEq v w) : allocOk rd cid w = allocOk rd cid v := by
  rcases h with rfl | rfl <;> rfl

/-- `setConsolidated` relates pointwise to the original pool by
`flipEq`. -/
theorem setConsolidated_flips (a : String) (l : List Wallet) :
    List.Forall₂ flipEq l (setConsolidated a l) := by
  induction l with
  | nil => exact List.Forall₂.nil
  | cons w ws ih =>
    by_cases h : (w.address == a) = true
    · simp only [setConsolidated, h]
      exact List.Forall₂.cons (Or.inr rfl) (List.forall₂_same.2 (fun x _ => flipEq_refl x))
    · have h' : (w.address == a) = false := by
        revert h; cases w.address == a <;> simp
      simp only [setConsolidated, h']
      exact List.Forall₂.cons (flipEq_refl w) ih

/-- Pointwise `flipEq` composes. -/
theorem forall₂_flipEq_trans {a b c : List Wallet}
    (h1 : List.Forall₂ flipEq a b) (h2 : List.Forall₂ flipEq b c) :
    List.Forall₂ flipEq a c := by
  induction h1 generalizing c with
  | nil => cases h2; exact List.Forall₂.nil
  | cons hr ht ih =>
    cases h2 with
    | cons hr2 ht2 => exact List.Forall₂.cons (flipEq_trans hr hr2) (ih ht2)

/-- Splitting a pointwise relation along a snoc on the left. -/
theorem forall₂_snoc_decomp {R : Wallet → Wallet → Prop}
    {l₁ : List Wallet} {x : Wallet} {m : List Wallet}
    (h : List.Forall₂ R (l₁ ++ [x]) m) :
    ∃ m₁ y, m = m₁ ++ [y] ∧ List.Forall₂ R l₁ m₁ ∧ R x y := by
  induction l₁ generalizing m with
  | nil =>
    cases h with
    | cons hr ht => cases ht; exact ⟨[], _, rfl, List.Forall₂.nil, hr⟩
  | cons a l ih =>
    cases h with
    | cons hr ht =>
      obtain ⟨m₁, y, rfl, hf, hxy⟩ := ih ht
      exact ⟨_ :: m₁, y, rfl, List.Forall₂.cons hr hf, hxy⟩

/-- A pool pointwise `flipEq`-related to an all-failing pool is also
all-failing. -/
theorem forall₂_allocFail (rd : Bool) (cid : String)
    {l l' : List Wallet} (h : List.Forall₂ flipEq l l')
    (hf : ∀ w ∈ l, allocOk rd cid w = false) :
    ∀ w ∈ l', allocOk rd cid w = false := by
  induction h with
  | nil => intro w hw; cases hw
  | cons hr ht ih =>
    intro w hw
    rcases List.mem_cons.1 hw with rfl | hw'
    · rw [flipEq_allocOk rd cid hr]
      exact hf _ (by simp)
    · exact ih (fun v hv => hf v (by simp [hv])) w hw'

/-- A failed creation (generation or registration failure) returns
`none` and leaves the pool untouched. -/
theorem createWallet_fail (now : Int) (f : FreshWallet) (isDev : Bool)
    (pool : List Wallet) (h : f.genOk = false ∨ f.regOk = false) :
    createWallet now f isDev pool = (none, pool) := by
  rcases h with h | h
  · simp [createWallet, h]
  · by_cases hg : f.genOk
    · simp [createWallet, hg, h]
    · simp [createWallet, hg]

/-- A successful creation appends one wallet that is `flipEq` to the
freshly built pool entry, leaving the rest of the pool intact up to
consolidation-flag flips. -/
theorem createWallet_success (now : Int) (f : FreshWallet) (isDev : Bool)
    (pool : List Wallet) (hg : f.genOk = true) (hr : f.regOk = true) :
    ∃ pc w1, List.Forall₂ flipEq pool pc ∧
      (createWallet now f isDev pool).2 = pc ++ [w1] ∧
      flipEq (mkPoolWallet now f isDev) w1 ∧
      (createWallet now f isDev pool).1.isSome = true := by
  by_cases hc : f.consOk
  · have hdecomp := setConsolidated_flips f.address
      (pool ++ [mkPoolWallet now f isDev])
    obtain ⟨pc, w1, heq, hfa, hflip⟩ := forall₂_snoc_decomp hdecomp
    refine ⟨pc, w1, hfa, ?_, hflip, ?_⟩
    · simp [createWallet, hg, hr, hc, heq]
    · simp [createWallet, hg, hr, hc]
  · have hc' : f.consOk = false := by
      revert hc; cases f.consOk <;> simp
    refine ⟨pool, mkPoolWallet now f isDev,
      List.forall₂_same.2 (fun x _ => flipEq_refl x), ?_,
      flipEq_refl _, ?_⟩
    · simp [createWallet, hg, hr, hc']
    · simp [createWallet, hg, hr, hc']

/-- Structure of the batch creation: the original pool survives up to
consolidation-flag flips, followed by one fresh entry per successful
creation; the returned count is the number of appended wallets, and at
least one wallet is appended when some environment entry generates and
registers successfully. -/
theorem createWalletsBatchAux_spec (now : Int) (isDev : Bool)
    (fs : List FreshWallet) (pool : List Wallet) :
    ∃ pc ext, List.Forall₂ flipEq pool pc ∧
      (createWalletsBatchAux now isDev fs pool).2 = pc ++ ext ∧
      (createWalletsBatchAux now isDev fs pool).1 = ext.length ∧
      (∀ w ∈ ext, w.in_use = false ∧ w.is_dev_wallet = isDev ∧
        w.solved_challenges = [] ∧
        w.address ∈ fs.map FreshWallet.address) ∧
      ((∃ f ∈ fs, f.genOk = true ∧ f.regOk = true) → ext ≠ []) := by
  induction fs generalizing pool with
  | nil =>
    refine ⟨pool, [], List.forall₂_same.2 (fun x _ => flipEq_refl x),
      by simp [createWalletsBatchAux], by simp [createWalletsBatchAux],
      by simp, by simp⟩
  | cons f fs ih =>
    by_cases hgr : f.genOk = true ∧ f.regOk = true
    · obtain ⟨pc1, w1, hpc1, heq2, hflip, hsome⟩ :=
        createWallet_success now f isDev pool hgr.1 hgr.2
      rcases hcw : createWallet now f isDev pool with ⟨ow, pool2⟩
      rw [hcw] at heq2 hsome
      simp only at heq2 hsome
      rcases ow with _ | wret
      · simp at hsome
      obtain ⟨pc2, ext2, hpc2, hres2, hcnt2, hfields2, _⟩ := ih pool2
      rw [heq2] at hpc2
      obtain ⟨pc3, w2, rfl, hpc3, hw12⟩ := forall₂_snoc_decomp hpc2
      refine ⟨pc3, w2 :: ext2, forall₂_flipEq_trans hpc1 hpc3, ?_, ?_, ?_, ?_⟩
      · simp only [createWalletsBatchAux, hcw]
        simpa [List.append_assoc] using hres2
      · simp only [createWalletsBatchAux, hcw]
        simp [hcnt2]
      · intro w hw
        rcases List.mem_cons.1 hw with rfl | hw'
        · have hfl := flipEq_trans hflip hw12
          obtain ⟨ha, hd, hu, hs⟩ := flipEq_fields hfl
          exact ⟨by simp [hu, mkPoolWallet], by simp [hd, mkPoolWallet],
            by simp [hs, mkPoolWallet], by simp [ha, mkPoolWallet]⟩
        · obtain ⟨hu, hd, hs, ha⟩ := hfields2 w hw'
          exact ⟨hu, hd, hs, by simp; right; simpa using ha⟩
      · intro _; simp
    · have hfail : f.genOk = false ∨ f.regOk = false := by
        rcases Decidable.not_and_iff_or_not.1 hgr with h | h
        · exact Or.inl (by revert h; cases f.genOk <;> simp)
        · exact Or.inr (by revert h; cases f.regOk <;> simp)
      have hcw := createWallet_fail now f isDev pool hfail
      obtain ⟨pc, ext, hpc, hres, hcnt, hfields, hne⟩ := ih pool
      refine ⟨pc, ext, hpc, ?_, ?_, ?_, ?_⟩
      · simp only [createWalletsBatchAux, hcw]
        exact hres
      · simp only [createWalletsBatchAux, hcw]
        exact hcnt
      · intro w hw
        obtain ⟨hu, hd, hs, ha⟩ := hfields w hw
        exact ⟨hu, hd, hs, by simp; right; simpa using ha⟩
      · intro hex
        obtain ⟨f', hf', hgr'⟩ := hex
        rcases List.mem_cons.1 hf' with rfl | hf''
        · exact absurd hgr' hgr
        · exact hne ⟨f', hf'', hgr'⟩

/-! ### Helper lemmas about the coordinator's wallet selection -/

/-- When the sticky block of `_allocate_user_wallet` produces a result,
that result carries a wallet. -/
theorem stickyReuse_some_isSome (now : Int) (cid : String)
    (sa : Option String) (pool : List Wallet)
    (r : Option Wallet × List Wallet)
    (h : stickyReuse now cid sa pool = some r) : r.1.isSome = true := by
  rcases sa with _ | addr
  · simp [stickyReuse] at h
  · rcases hg : getWallet addr pool with _ | w
    · simp [stickyReuse, hg] at h
    · simp only [stickyReuse, hg] at h
      split at h
      · exact absurd h (by simp)
      · split at h
        · have hr := Option.some.inj h
          subst hr; rfl
        · have hr := Option.some.inj h
          subst hr; rfl

/-- A failed `_allocate_dev_wallet` with creation disabled leaves the
pool unchanged. -/
theorem allocateDevWallet_noCreate_eq (now : Int) (cid : String)
    (cci : Option String) (df : Option FreshWallet) (pool : List Wallet)
    (h : (allocateDevWallet now cid cci false df pool).1 = none) :
    allocateDevWallet now cid cci false df pool = (none, pool) := by
  rcases cci with _ | cur
  · by_cases hn : (allocateWallet now cid true pool).1 = none
    · have ha := allocateWallet_none_eq now cid true pool hn
      simp [allocateDevWallet, ha]
    · exfalso
      rcases ha : allocateWallet now cid true pool with ⟨ow, p⟩
      rcases ow with _ | w
      · rw [ha] at hn; simp at hn
      · simp [allocateDevWallet, ha] at h
  · by_cases hcur : (cur == cid) = true
    · by_cases hn1 : (allocateWallet now cur true pool).1 = none
      · have ha1 := allocateWallet_none_eq now cur true pool hn1
        by_cases hn2 : (allocateWallet now cid true pool).1 = none
        · have ha2 := allocateWallet_none_eq now cid true pool hn2
          simp [allocateDevWallet, hcur, ha1, ha2]
        · exfalso
          rcases ha2 : allocateWallet now cid true pool with ⟨ow2, p2⟩
          rcases ow2 with _ | w2
          · rw [ha2] at hn2; simp at hn2
          · simp [allocateDevWallet, hcur, ha1, ha2] at h
      · exfalso
        rcases ha1 : allocateWallet now cur true pool with ⟨ow1, p1⟩
        rcases ow1 with _ | w1
        · rw [ha1] at hn1; simp at hn1
        · simp [allocateDevWallet, hcur, ha1] at h
    · have hcur' : (cur == cid) = false := by
        revert hcur; cases cur == cid <;> simp
      by_cases hn2 : (allocateWallet now cid true pool).1 = none
      · have ha2 := allocateWallet_none_eq now cid true pool hn2
        simp [allocateDevWallet, hcur', ha2]
      · exfalso
        rcases ha2 : allocateWallet now cid true pool with ⟨ow2, p2⟩
        rcases ow2 with _ | w2
        · rw [ha2] at hn2; simp at hn2
        · simp [allocateDevWallet, hcur', ha2] at h

/-- A failed `_allocate_user_wallet` with creation disabled means the
sticky block fell through and plain allocation failed, and the pool is
unchanged. -/
theorem allocateUserWallet_noCreate_eq (now : Int) (c : Challenge)
    (sa : Option String) (g : Bool) (env : List FreshWallet)
    (pool : List Wallet)
    (h : (allocateUserWallet now c sa false g env pool).1 = none) :
    stickyReuse now c.challenge_id sa pool = none ∧
    allocateWallet now c.challenge_id false pool = (none, pool) ∧
    allocateUserWallet now c sa false g env pool = (none, pool) := by
  rcases hs : stickyReuse now c.challenge_id sa pool with _ | r
  · by_cases hn : (allocateWallet now c.challenge_id false pool).1 = none
    · have ha := allocateWallet_none_eq now c.challenge_id false pool hn
      exact ⟨rfl, ha, by simp [allocateUserWallet, hs, ha]⟩
    · exfalso
      rcases ha : allocateWallet now c.challenge_id false pool with ⟨ow, p⟩
      rcases ow with _ | w
      · rw [ha] at hn; simp at hn
      · simp [allocateUserWallet, hs, ha] at h
  · exfalso
    have hsome := stickyReuse_some_isSome now c.challenge_id sa pool r hs
    have hres : (allocateUserWallet now c sa false g env pool).1 = r.1 := by
      simp [allocateUserWallet, hs]
    rw [h] at hres
    rw [← hres] at hsome
    simp at hsome

/-- A failed `_select_wallet` with creation disabled leaves the pool
unchanged and returns a cleared result. -/
theorem selectWallet_noCreate_eq (now : Int) (c : Challenge) (u : Bool)
    (sa : Option String) (cci : Option String) (g : Bool)
    (df : Option FreshWallet) (env : List FreshWallet) (pool : List Wallet)
    (h : (selectWallet now c u sa cci g false df env pool).1.1 = none) :
    selectWallet now c u sa cci g false df env pool = ((none, false), pool) := by
  by_cases hu : u = true
  · subst hu
    by_cases hd : (allocateDevWallet now c.challenge_id cci false df pool).1 = none
    · have hde := allocateDevWallet_noCreate_eq now c.challenge_id cci df pool hd
      simp [selectWallet, hde]
    · exfalso
      rcases hde : allocateDevWallet now c.challenge_id cci false df pool with ⟨ow, p⟩
      rcases ow with _ | w
      · rw [hde] at hd; simp at hd
      · simp [selectWallet, hde] at h
  · have hu' : u = false := by revert hu; cases u <;> simp
    subst hu'
    have huser : (allocateUserWallet now c sa false g env pool).1 = none := by
      simpa [selectWallet] using h
    obtain ⟨-, -, he⟩ :=
      allocateUserWallet_noCreate_eq now c sa g env pool huser
    simp [selectWallet, he]

/-- When `_select_wallet` fails on every challenge with creation
disabled, the reuse-search loop returns `none` and leaves the pool
unchanged. -/
theorem walletReuseSearch_none (now : Int) (u : Bool) (sa : Option String)
    (cci : Option String) (g : Bool) (df : Option FreshWallet)
    (env : List FreshWallet) (pool : List Wallet) (cs : List Challenge)
    (h : ∀ c ∈ cs,
      (selectWallet now c u sa cci g false df env pool).1.1 = none) :
    walletReuseSearch now u sa cci g df env pool cs = (none, pool) := by
  induction cs with
  | nil => rfl
  | cons c cs ih =>
    have hc := h c (by simp)
    have hsel := selectWallet_noCreate_eq now c u sa cci g df env pool hc
    simp only [walletReuseSearch, hsel]
    exact ih (fun c' hc' => h c' (by simp [hc']))

/-! ### Helper lemmas about the challenge ordering -/

/-- The sort step is a permutation. -/
theorem sortByDiscovered_perm (l : List Challenge) :
    (sortByDiscovered l).Perm l :=
  List.mergeSort_perm l _

/-- The sort step is ascending in `discovered_at`. -/
theorem sortByDiscovered_sorted (l : List Challenge) :
    List.Pairwise (fun a b : Challenge => a.discovered_at ≤ b.discovered_at)
      (sortByDiscovered l) := by
  have h := @List.sorted_mergeSort Challenge
    (fun a b : Challenge => decide (a.discovered_at ≤ b.discovered_at))
    (fun a b c hab hbc => by
      simp only [decide_eq_true_eq] at hab hbc ⊢; omega)
    (fun a b => by
      rcases Int.le_total a.discovered_at b.discovered_at with h | h <;>
        simp [h])
    l
  exact h.imp (fun hab => by simpa using hab)

/-- The full challenge ordering is a permutation of the input. -/
theorem orderChallenges_perm (l : List Challenge) :
    (orderChallenges l).Perm l := by
  unfold orderChallenges
  rcases hs : sortByDiscovered l with _ | ⟨first, rest⟩
  · have hp := sortByDiscovered_perm l
    rw [hs] at hp
    have hl : l = [] := List.Perm.eq_nil hp.symm
    rw [hl]
  · have hp : (first :: rest).Perm l := by
      rw [← hs]; exact sortByDiscovered_perm l
    by_cases hd : hexToNat first.difficulty <
        hexToNat ((first :: rest).getLastD first).difficulty
    · by_cases hle : ((first :: rest).filter
          (fun c => hexToNat c.difficulty == hexToNat first.difficulty)).isEmpty
      · simp only [hd, if_true, hle, Bool.not_true, Bool.false_eq_true,
          if_false]
        exact hp
      · have hle' : (!((first :: rest).filter
            (fun c => hexToNat c.difficulty ==
              hexToNat first.difficulty)).isEmpty) = true := by
          revert hle
          cases ((first :: rest).filter
            (fun c => hexToNat c.difficulty ==
              hexToNat first.difficulty)).isEmpty <;> simp
        simp only [hd, if_true, hle', if_true]
        exact (List.filter_append_perm _ (first :: rest)).trans hp
    · simp only [hd, if_false]
      exact hp

/-- The challenge ordering of a non-empty list is non-empty. -/
theorem orderChallenges_ne_nil (l : List Challenge) (h : l ≠ []) :
    orderChallenges l ≠ [] := by
  intro hnil
  have hp := orderChallenges_perm l
  rw [hnil] at hp
  exact h (List.Perm.eq_nil hp.symm)

/-- Reduction of `dispatch_job` when the wallet-reuse search fails on
every challenge: the dispatch falls through to `_select_wallet` with
creation allowed on the oldest challenge. -/
theorem dispatchJob_fallback_eq (now : Int) (st : CoordState)
    (workerType : WorkerType) (workerId : Nat)
    (challenges : List Challenge) (useDev : Bool)
    (devFresh : Option FreshWallet) (userEnv : List FreshWallet)
    (pool : List Wallet) (oldest : Challenge) (rest : List Challenge)
    (hne' : challenges.isEmpty = false)
    (hoc : orderChallenges challenges = oldest :: rest)
    (hsearch : walletReuseSearch now
        (desiredDevWallet st workerType workerId useDev)
        (dispatchStickyAddress st workerType workerId
          (desiredDevWallet st workerType workerId useDev))
        (currentChallengeOf st workerType workerId)
        (workerType == WorkerType.gpu) devFresh userEnv pool
        (orderChallenges challenges) = (none, pool)) :
    dispatchJob now st workerType workerId challenges useDev devFresh
        userEnv pool =
      (match selectWallet now oldest
          (desiredDevWallet st workerType workerId useDev)
          (dispatchStickyAddress st workerType workerId
            (desiredDevWallet st workerType workerId useDev))
          (currentChallengeOf st workerType workerId)
          (workerType == WorkerType.gpu) true devFresh userEnv pool with
        | ((some w, isDev), pool2) => (some (w, oldest.challenge_id, isDev), pool2)
        | ((none, _), pool2) => (none, pool2)) := by
  rw [hoc] at hsearch
  simp only [dispatchJob, hne', Bool.false_eq_true, if_false, hoc, hsearch]

/-- Creation fallback of `_select_wallet` on a GPU pool: when the sticky
block falls through, no existing wallet is allocatable, and some batch
environment entry succeeds, a batch is created and one of its wallets is
allocated. -/
theorem selectWallet_create_gpu (now : Int) (c : Challenge)
    (sa : Option String) (cci : Option String)
    (devFresh : Option FreshWallet) (userEnv : List FreshWallet)
    (pool : List Wallet)
    (hs : stickyReuse now c.challenge_id sa pool = none)
    (ha : allocateWallet now c.challenge_id false pool = (none, pool))
    (hcr : ∃ f ∈ userEnv.take 20, f.genOk = true ∧ f.regOk = true) :
    ∃ w pool2,
      selectWallet now c false sa cci true true devFresh userEnv pool =
        ((some w, false), pool2) ∧
      w.in_use = true ∧ w.is_dev_wallet = false ∧
      w.address ∈ (userEnv.take 20).map FreshWallet.address := by
  obtain ⟨pc, ext, hpc, hres, hcnt, hfields, hnemp⟩ :=
    createWalletsBatchAux_spec now false (userEnv.take 20) pool
  have hextne : ext ≠ [] := hnemp hcr
  rcases hext : ext with _ | ⟨e, ext'⟩
  · exact absurd hext hextne
  rw [hext] at hres hcnt hfields
  have hbatch : createWalletsBatchAux now false (userEnv.take 20) pool =
      ((e :: ext').length, pc ++ e :: ext') := by
    rcases hb : createWalletsBatchAux now false (userEnv.take 20) pool
      with ⟨k, pb⟩
    rw [hb] at hres hcnt
    simp only at hres hcnt
    rw [hres, hcnt]
  have hfailpool : ∀ w ∈ pool, allocOk false c.challenge_id w = false :=
    (allocateWallet_none_iff now c.challenge_id false pool).1 (by rw [ha])
  have hfailpc := forall₂_allocFail false c.challenge_id hpc hfailpool
  have he := hfields e (by simp)
  have heOk : allocOk false c.challenge_id e = true := by
    obtain ⟨hu, hd, hsv, _⟩ := he
    simp [allocOk, hu, hd, hsv]
  have hallocB : allocateWallet now c.challenge_id false (pc ++ e :: ext') =
      (some (markAllocated now c.challenge_id e),
        pc ++ markAllocated now c.challenge_id e :: ext') := by
    rw [allocateWallet_append now c.challenge_id false pc _ hfailpc]
    simp [allocateWallet_cons_eq, heOk]
  refine ⟨markAllocated now c.challenge_id e,
    pc ++ markAllocated now c.challenge_id e :: ext', ?_, rfl, ?_, ?_⟩
  · simp only [selectWallet, Bool.false_eq_true, if_false,
      allocateUserWallet, hs, ha, createWalletsBatch, hbatch]
    simp [hallocB]
  · have := he.2.1
    simpa [markAllocated] using this
  · have := he.2.2.2
    simpa [markAllocated] using this

/-- Creation fallback of `_select_wallet` on the CPU pool: when the
sticky block falls through, no existing wallet is allocatable, and the
next environment entry succeeds, a single wallet is created and
allocated. -/
theorem selectWallet_create_cpu (now : Int) (c : Challenge)
    (sa : Option String) (cci : Option String)
    (devFresh : Option FreshWallet) (f : FreshWallet)
    (rest' : List FreshWallet) (pool : List Wallet)
    (hs : stickyReuse now c.challenge_id sa pool = none)
    (ha : allocateWallet now c.challenge_id false pool = (none, pool))
    (hg : f.genOk = true) (hr : f.regOk = true) :
    ∃ w pool2,
      selectWallet now c false sa cci false true devFresh (f :: rest')
          pool = ((some w, false), pool2) ∧
      w.in_use = true ∧ w.is_dev_wallet = false ∧
      w.address = f.address := by
  obtain ⟨pc, w1, hpc, heq, hflip, hsome⟩ :=
    createWallet_success now f false pool hg hr
  rcases hcw : createWallet now f false pool with ⟨ow, pool2⟩
  rw [hcw] at heq hsome
  simp only at heq hsome
  rcases ow with _ | wret
  · simp at hsome
  obtain ⟨haddr, hdev, huse, hsolved⟩ := flipEq_fields hflip
  have hw1Ok : allocOk false c.challenge_id w1 = true := by
    simp [allocOk, haddr, hdev, huse, hsolved, mkPoolWallet]
  have hfailpool : ∀ w ∈ pool, allocOk false c.challenge_id w = false :=
    (allocateWallet_none_iff now c.challenge_id false pool).1 (by rw [ha])
  have hfailpc := forall₂_allocFail false c.challenge_id hpc hfailpool
  have halloc2 : allocateWallet now c.challenge_id false (pc ++ [w1]) =
      (some (markAllocated now c.challenge_id w1),
        pc ++ [markAllocated now c.challenge_id w1]) := by
    rw [allocateWallet_append now c.challenge_id false pc _ hfailpc]
    simp [allocateWallet_cons_eq, hw1Ok]
  refine ⟨markAllocated now c.challenge_id w1,
    pc ++ [markAllocated now c.challenge_id w1], ?_, rfl, ?_, ?_⟩
  · simp only [selectWallet, Bool.false_eq_true, if_false,
      allocateUserWallet, hs, ha, hcw, heq]
    simp [halloc2]
  · simpa [markAllocated, mkPoolWallet] using hdev
  · simpa [markAllocated, mkPoolWallet] using haddr

/-! ### Claims -/

/-- C1: in a dispatch where the wallet-reuse search (allocation with
`allow_creation=False`) fails on every available challenge, `dispatch_job`
falls back to the oldest challenge and allocates with creation allowed:
on a GPU pool (integer pool id) a batch of wallets is created through the
pool's batch-creation operation and one of them is allocated; on the CPU
pool a single wallet is created and allocated; the dispatch returns an
allocated wallet rather than failing.  (The batch-creation operation,
absent from the sources, is modelled from the spec; see
`createWalletsBatch`.) -/
theorem C1_dispatch_creation_fallback (now : Int) (st : CoordState)
    (workerType : WorkerType) (workerId : Nat)
    (challenges : List Challenge) (devFresh : Option FreshWallet)
    (userEnv : List FreshWallet) (pool : List Wallet)
    (hne : challenges ≠ [])
    (hpend : workerType = WorkerType.cpu →
      (st.cpuPendingDevFee.lookup workerId).getD false = false)
    (hnone : ∀ c ∈ orderChallenges challenges,
      (selectWallet now c false
        (dispatchStickyAddress st workerType workerId false)
        (currentChallengeOf st workerType workerId)
        (workerType == WorkerType.gpu) false devFresh userEnv pool).1.1
        = none)
    (hcreate : (workerType = WorkerType.gpu →
        ∃ f ∈ userEnv.take 20, f.genOk = true ∧ f.regOk = true) ∧
      (workerType = WorkerType.cpu →
        ∃ f rest', userEnv = f :: rest' ∧ f.genOk = true ∧ f.regOk = true)) :
    ∃ w, (dispatchJob now st workerType workerId challenges false devFresh
        userEnv pool).1 =
        some (w, (orderChallenges challenges).headI.challenge_id, false) ∧
      w.in_use = true ∧ w.is_dev_wallet = false ∧
      (workerType = WorkerType.gpu →
        w.address ∈ (userEnv.take 20).map FreshWallet.address) ∧
      (workerType = WorkerType.cpu →
        ∃ f rest', userEnv = f :: rest' ∧ w.address = f.address) := by
  have hdes : desiredDevWallet st workerType workerId false = false := by
    cases workerType with
    | gpu => rfl
    | cpu =>
      have hp := hpend rfl
      simp [desiredDevWallet, hp]
  have hne' : challenges.isEmpty = false := by
    rcases challenges with _ | _
    · exact absurd rfl hne
    · rfl
  rcases hoc : orderChallenges challenges with _ | ⟨oldest, rest⟩
  · exact absurd hoc (orderChallenges_ne_nil challenges hne)
  have hsearch : walletReuseSearch now
      (desiredDevWallet st workerType workerId false)
      (dispatchStickyAddress st workerType workerId
        (desiredDevWallet st workerType workerId false))
      (currentChallengeOf st workerType workerId)
      (workerType == WorkerType.gpu) devFresh userEnv pool
      (orderChallenges challenges) = (none, pool) := by
    rw [hdes]
    exact walletReuseSearch_none now false _ _ _ devFresh userEnv pool _ hnone
  have hdj := dispatchJob_fallback_eq now st workerType workerId challenges
    false devFresh userEnv pool oldest rest hne' hoc hsearch
  rw [hdes] at hdj
  have holdmem : oldest ∈ orderChallenges challenges := by rw [hoc]; simp
  have hself := hnone oldest holdmem
  have huser : (allocateUserWallet now oldest
      (dispatchStickyAddress st workerType workerId false) false
      (workerType == WorkerType.gpu) userEnv pool).1 = none := by
    simpa [selectWallet] using hself
  obtain ⟨hs, ha, -⟩ :=
    allocateUserWallet_noCreate_eq now oldest _ _ userEnv pool huser
  have hhead : (orderChallenges challenges).headI = oldest := by
    rw [hoc]; rfl
  cases workerType with
  | gpu =>
    obtain ⟨w, pool2, hsel, hin, hdev, haddr⟩ :=
      selectWallet_create_gpu now oldest
        (dispatchStickyAddress st WorkerType.gpu workerId false)
        (currentChallengeOf st WorkerType.gpu workerId) devFresh userEnv
        pool hs ha (hcreate.1 rfl)
    have hbeq : (WorkerType.gpu == WorkerType.gpu) = true := rfl
    rw [hbeq] at hdj
    rw [hsel] at hdj
    refine ⟨w, ?_, hin, hdev, fun _ => haddr, fun hcontra => ?_⟩
    · rw [hdj]
      rfl
    · cases hcontra
  | cpu =>
    obtain ⟨f, rest', henv, hg, hr⟩ := hcreate.2 rfl
    subst henv
    obtain ⟨w, pool2, hsel, hin, hdev, haddr⟩ :=
      selectWallet_create_cpu now oldest
        (dispatchStickyAddress st WorkerType.cpu workerId false)
        (currentChallengeOf st WorkerType.cpu workerId) devFresh f rest'
        pool hs ha hg hr
    have hbeq : (WorkerType.cpu == WorkerType.gpu) = false := rfl
    rw [hbeq] at hdj
    rw [hsel] at hdj
    refine ⟨w, ?_, hin, hdev, fun hcontra => ?_, fun _ => ⟨f, rest', rfl, haddr⟩⟩
    · rw [hdj]
      rfl
    · cases hcontra

/-- Witness for C1: a CPU dispatch on one challenge with an empty pool
and one successful creation environment entry. -/
theorem C1_dispatch_creation_fallback_witness :
    ∃ w, (dispatchJob 5 ⟨[], [], [], [], []⟩ WorkerType.cpu 0
        [⟨"c1", "01", "r", "", "", 0, 0⟩] false none
        [⟨"a1", "p1", "s1", "g1", true, true, false⟩] []).1 =
        some (w, (orderChallenges
          [⟨"c1", "01", "r", "", "", 0, 0⟩]).headI.challenge_id, false) ∧
      w.in_use = true ∧ w.is_dev_wallet = false ∧
      (WorkerType.cpu = WorkerType.gpu →
        w.address ∈ (([⟨"a1", "p1", "s1", "g1", true, true, false⟩] :
          List FreshWallet).take 20).map FreshWallet.address) ∧
      (WorkerType.cpu = WorkerType.cpu →
        ∃ f rest', ([⟨"a1", "p1", "s1", "g1", true, true, false⟩] :
          List FreshWallet) = f :: rest' ∧ w.address = f.address) := by
  have hch : orderChallenges
      [(⟨"c1", "01", "r", "", "", 0, 0⟩ : Challenge)] =
      [⟨"c1", "01", "r", "", "", 0, 0⟩] := by
    simp [orderChallenges, sortByDiscovered]
  refine C1_dispatch_creation_fallback 5 ⟨[], [], [], [], []⟩
    WorkerType.cpu 0 [⟨"c1", "01", "r", "", "", 0, 0⟩] none
    [⟨"a1", "p1", "s1", "g1", true, true, false⟩] []
    (by decide) (fun _ => by decide) ?_
    ⟨fun h => absurd h (by decide), fun _ => ⟨_, [], rfl, rfl, rfl⟩⟩
  intro c hc
  rw [hch] at hc
  have hc' : c = ⟨"c1", "01", "r", "", "", 0, 0⟩ := by simpa using hc
  subst hc'
  decide

/-- C2: for every input, `APIClient.submit_solution` appends the solution
to the background submission queue and immediately returns
`(queued=true, fatal=false)`; the returned pair is a constant of the
function and does not depend on any coordinator response. -/
theorem C2_submit_solution_always_queues (now : Int) (q : List Submission)
    (walletAddress challengeId nonce : String) :
    (submitSolution now q walletAddress challengeId nonce).1 =
      (true, false) ∧
    (submitSolution now q walletAddress challengeId nonce).2 =
      q ++ [mkSubmission now walletAddress challengeId nonce] :=
  ⟨rfl, rfl⟩

/-- C3: because `submit_solution` always returns `(True, False)`, every
found solution without a worker error takes the success path of
`process_response`: the wallet is released as solved, the solution is
recorded and stamped `accepted`, the session counters are bumped, and —
the fatal and transient branches of `_handle_failed_submission` being
unreachable — the persistent failed-solution store is left untouched. -/
theorem C3_found_solution_success_path (now : Int) (st : ProcState)
    (resp : MineResponse) (walletAddress challengeId : String)
    (isDev : Bool) (currentChallenge : Challenge) (keepWalletOnFail : Bool)
    (herr : resp.error = none) (hfound : resp.found = true) :
    processResponse now st resp walletAddress challengeId isDev
        currentChallenge keepWalletOnFail =
      { pool := releaseWallet walletAddress (some challengeId) true st.pool,
        db := { solutions := updateSolutionStatus challengeId
                  (formatNonceHex resp.nonce) "accepted"
                  (addSolution now challengeId (formatNonceHex resp.nonce)
                    walletAddress currentChallenge.difficulty isDev
                    st.db.solutions),
                solvedChallenges := markSolved walletAddress challengeId
                  st.db.solvedChallenges,
                failedSolutions := st.db.failedSolutions },
        subQueue := st.subQueue ++ [mkSubmission now walletAddress
          challengeId (formatNonceHex resp.nonce)],
        sessionSolutions := if isDev then st.sessionSolutions
          else st.sessionSolutions + 1,
        devSessionSolutions := if isDev then st.devSessionSolutions + 1
          else st.devSessionSolutions,
        walletSessionSolutions := if isDev then st.walletSessionSolutions
          else bumpWalletSolutions walletAddress st.walletSessionSolutions }
      := by
  simp only [processResponse, herr, hfound, if_true, handleSolution,
    submitSolution, queueSubmit, handleSuccessfulSubmission]

/-- Witness for C3 at a concrete found response. -/
theorem C3_found_solution_success_path_witness :
    processResponse 0 ⟨[], ⟨[], [], []⟩, [], 0, 0, []⟩
        ⟨1, true, 255, none⟩ "w1" "c1" false
        ⟨"c1", "01", "r", "", "", 0, 0⟩ false =
      { pool := releaseWallet "w1" (some "c1") true [],
        db := { solutions := updateSolutionStatus "c1"
                  (formatNonceHex 255) "accepted"
                  (addSolution 0 "c1" (formatNonceHex 255) "w1" "01"
                    false []),
                solvedChallenges := markSolved "w1" "c1" [],
                failedSolutions := [] },
        subQueue := [] ++ [mkSubmission 0 "w1" "c1" (formatNonceHex 255)],
        sessionSolutions := if false then 0 else 0 + 1,
        devSessionSolutions := if false then 0 + 1 else 0,
        walletSessionSolutions := if false then []
          else bumpWalletSolutions "w1" [] } :=
  C3_found_solution_success_path 0 ⟨[], ⟨[], [], []⟩, [], 0, 0, []⟩
    ⟨1, true, 255, none⟩ "w1" "c1" false ⟨"c1", "01", "r", "", "", 0, 0⟩
    false rfl rfl

/-- C4 counterexample: two challenges with the older one harder.  The
difficulties differ (`max > min`), yet `dispatch_job`'s ordering performs
no reorder — the spike test compares only the newest challenge against
the oldest — so the higher-difficulty challenge stays in front of the
minimum-difficulty one. -/
theorem C4_counterexample :
    orderChallenges [⟨"a", "05", "", "", "", 0, 0⟩,
        ⟨"b", "03", "", "", "", 1, 0⟩] =
      [⟨"a", "05", "", "", "", 0, 0⟩, ⟨"b", "03", "", "", "", 1, 0⟩] ∧
    hexToNat "03" < hexToNat "05" ∧
    ¬ List.Pairwise
      (fun a b : Challenge => hexToNat b.difficulty = 3 →
        hexToNat a.difficulty = 3)
      (orderChallenges [⟨"a", "05", "", "", "", 0, 0⟩,
        ⟨"b", "03", "", "", "", 1, 0⟩]) := by
  have hsort : sortByDiscovered [⟨"a", "05", "", "", "", 0, 0⟩,
      ⟨"b", "03", "", "", "", 1, 0⟩] =
      [⟨"a", "05", "", "", "", 0, 0⟩, ⟨"b", "03", "", "", "", 1, 0⟩] :=
    List.mergeSort_of_sorted (by decide)
  have hord : orderChallenges [⟨"a", "05", "", "", "", 0, 0⟩,
      ⟨"b", "03", "", "", "", 1, 0⟩] =
      [⟨"a", "05", "", "", "", 0, 0⟩, ⟨"b", "03", "", "", "", 1, 0⟩] := by
    unfold orderChallenges
    rw [hsort]
    decide
  refine ⟨hord, by decide, ?_⟩
  rw [hord]
  decide

/-- C4 (amended): the challenge list is stably sorted ascending by
`discovered_at`; the spike reorder triggers only when the newest (last)
challenge's difficulty strictly exceeds the oldest (first) challenge's,
and it then puts every challenge whose difficulty equals the oldest
challenge's difficulty (not the minimum difficulty) in front of the
others, preserving the sorted order inside each part. -/
theorem C4_order_amended (l : List Challenge) (sorted : List Challenge)
    (d0 : Nat) (hne : l ≠ [])
    (_hvalid : ∀ c ∈ l, (parseHex? c.difficulty).isSome = true)
    (hsorted : sorted = sortByDiscovered l)
    (hd0 : d0 = hexToNat sorted.headI.difficulty) :
    List.Pairwise
      (fun a b : Challenge => a.discovered_at ≤ b.discovered_at) sorted ∧
    sorted.Perm l ∧
    (¬ d0 < hexToNat (sorted.getLastD sorted.headI).difficulty →
      orderChallenges l = sorted) ∧
    (d0 < hexToNat (sorted.getLastD sorted.headI).difficulty →
      orderChallenges l =
        sorted.filter (fun c => hexToNat c.difficulty == d0) ++
        sorted.filter (fun c => !(hexToNat c.difficulty == d0)) ∧
      (orderChallenges l).Perm l ∧
      List.Pairwise (fun a b : Challenge =>
          hexToNat b.difficulty = d0 → hexToNat a.difficulty = d0)
        (orderChallenges l) ∧
      List.Pairwise
        (fun a b : Challenge => a.discovered_at ≤ b.discovered_at)
        (sorted.filter (fun c => hexToNat c.difficulty == d0)) ∧
      List.Pairwise
        (fun a b : Challenge => a.discovered_at ≤ b.discovered_at)
        (sorted.filter (fun c => !(hexToNat c.difficulty == d0)))) := by
  subst hsorted
  subst hd0
  refine ⟨sortByDiscovered_sorted l, sortByDiscovered_perm l, ?_, ?_⟩
  · intro hlt
    rcases hs : sortByDiscovered l with _ | ⟨first, rest⟩
    · exfalso
      have hp := sortByDiscovered_perm l
      rw [hs] at hp
      exact hne (List.Perm.eq_nil hp.symm)
    · rw [hs] at hlt
      unfold orderChallenges
      rw [hs]
      simp only [List.headI_cons] at hlt
      simp only [List.getLastD_eq_getLast?] at hlt ⊢
      simp [hlt]
  · intro hlt
    rcases hs : sortByDiscovered l with _ | ⟨first, rest⟩
    · exfalso
      have hp := sortByDiscovered_perm l
      rw [hs] at hp
      exact hne (List.Perm.eq_nil hp.symm)
    · rw [hs] at hlt
      simp only [List.headI_cons] at hlt ⊢
      have hfirstmem : first ∈ List.filter
          (fun c => hexToNat c.difficulty == hexToNat first.difficulty)
          (first :: rest) :=
        List.mem_filter.2 ⟨by simp, by simp⟩
      have hlowne : List.filter
          (fun c => hexToNat c.difficulty == hexToNat first.difficulty)
          (first :: rest) ≠ [] := by
        intro hcontra
        rw [hcontra] at hfirstmem
        cases hfirstmem
      have hlowempty : (List.filter
          (fun c => hexToNat c.difficulty == hexToNat first.difficulty)
          (first :: rest)).isEmpty = false :=
        List.isEmpty_eq_false.2 hlowne
      have hord : orderChallenges l =
          List.filter
            (fun c => hexToNat c.difficulty == hexToNat first.difficulty)
            (first :: rest) ++
          List.filter
            (fun c => !(hexToNat c.difficulty == hexToNat first.difficulty))
            (first :: rest) := by
        unfold orderChallenges
        rw [hs]
        simp only [List.getLastD_eq_getLast?] at hlt
        simp [hlt, hlowempty]
      have hperm : (orderChallenges l).Perm l := orderChallenges_perm l
      have hsortedlist := sortByDiscovered_sorted l
      rw [hs] at hsortedlist
      refine ⟨hord, hperm, ?_, ?_, ?_⟩
      · rw [hord]
        rw [List.pairwise_append]
        refine ⟨?_, ?_, ?_⟩
        · refine List.pairwise_of_forall_mem_list ?_
          intro a ha b hb
          have := (List.mem_filter.1 ha).2
          intro _
          simpa using this
        · refine List.pairwise_of_forall_mem_list ?_
          intro a ha b hb
          have hbno := (List.mem_filter.1 hb).2
          intro hbeq
          exfalso
          simp [hbeq] at hbno
        · intro a ha b hb
          have := (List.mem_filter.1 ha).2
          intro _
          simpa using this
      · exact List.Pairwise.sublist (List.filter_sublist _) hsortedlist
      · exact List.Pairwise.sublist (List.filter_sublist _) hsortedlist

/-- Witness for the amended C4 at a concrete two-challenge spike. -/
theorem C4_order_amended_witness :
    List.Pairwise
      (fun a b : Challenge => a.discovered_at ≤ b.discovered_at)
      (sortByDiscovered [⟨"a", "03", "", "", "", 0, 0⟩,
        ⟨"b", "05", "", "", "", 1, 0⟩]) ∧
    (sortByDiscovered [⟨"a", "03", "", "", "", 0, 0⟩,
        ⟨"b", "05", "", "", "", 1, 0⟩]).Perm
      [⟨"a", "03", "", "", "", 0, 0⟩, ⟨"b", "05", "", "", "", 1, 0⟩] ∧
    (¬ hexToNat (sortByDiscovered [⟨"a", "03", "", "", "", 0, 0⟩,
          ⟨"b", "05", "", "", "", 1, 0⟩]).headI.difficulty <
        hexToNat ((sortByDiscovered [⟨"a", "03", "", "", "", 0, 0⟩,
          ⟨"b", "05", "", "", "", 1, 0⟩]).getLastD
          (sortByDiscovered [⟨"a", "03", "", "", "", 0, 0⟩,
            ⟨"b", "05", "", "", "", 1, 0⟩]).headI).difficulty →
      orderChallenges [⟨"a", "03", "", "", "", 0, 0⟩,
          ⟨"b", "05", "", "", "", 1, 0⟩] =
        sortByDiscovered [⟨"a", "03", "", "", "", 0, 0⟩,
          ⟨"b", "05", "", "", "", 1, 0⟩]) ∧
    (hexToNat (sortByDiscovered [⟨"a", "03", "", "", "", 0, 0⟩,
          ⟨"b", "05", "", "", "", 1, 0⟩]).headI.difficulty <
        hexToNat ((sortByDiscovered [⟨"a", "03", "", "", "", 0, 0⟩,
          ⟨"b", "05", "", "", "", 1, 0⟩]).getLastD
          (sortByDiscovered [⟨"a", "03", "", "", "", 0, 0⟩,
            ⟨"b", "05", "", "", "", 1, 0⟩]).headI).difficulty →
      orderChallenges [⟨"a", "03", "", "", "", 0, 0⟩,
          ⟨"b", "05", "", "", "", 1, 0⟩] =
        (sortByDiscovered [⟨"a", "03", "", "", "", 0, 0⟩,
          ⟨"b", "05", "", "", "", 1, 0⟩]).filter
          (fun c => hexToNat c.difficulty ==
            hexToNat (sortByDiscovered [⟨"a", "03", "", "", "", 0, 0⟩,
              ⟨"b", "05", "", "", "", 1, 0⟩]).headI.difficulty) ++
        (sortByDiscovered [⟨"a", "03", "", "", "", 0, 0⟩,
          ⟨"b", "05", "", "", "", 1, 0⟩]).filter
          (fun c => !(hexToNat c.difficulty ==
            hexToNat (sortByDiscovered [⟨"a", "03", "", "", "", 0, 0⟩,
              ⟨"b", "05", "", "", "", 1, 0⟩]).headI.difficulty)) ∧
      (orderChallenges [⟨"a", "03", "", "", "", 0, 0⟩,
        ⟨"b", "05", "", "", "", 1, 0⟩]).Perm
        [⟨"a", "03", "", "", "", 0, 0⟩, ⟨"b", "05", "", "", "", 1, 0⟩] ∧
      List.Pairwise (fun a b : Challenge =>
          hexToNat b.difficulty =
            hexToNat (sortByDiscovered [⟨"a", "03", "", "", "", 0, 0⟩,
              ⟨"b", "05", "", "", "", 1, 0⟩]).headI.difficulty →
          hexToNat a.difficulty =
            hexToNat (sortByDiscovered [⟨"a", "03", "", "", "", 0, 0⟩,
              ⟨"b", "05", "", "", "", 1, 0⟩]).headI.difficulty)
        (orderChallenges [⟨"a", "03", "", "", "", 0, 0⟩,
          ⟨"b", "05", "", "", "", 1, 0⟩]) ∧
      List.Pairwise
        (fun a b : Challenge => a.discovered_at ≤ b.discovered_at)
        ((sortByDiscovered [⟨"a", "03", "", "", "", 0, 0⟩,
          ⟨"b", "05", "", "", "", 1, 0⟩]).filter
          (fun c => hexToNat c.difficulty ==
            hexToNat (sortByDiscovered [⟨"a", "03", "", "", "", 0, 0⟩,
              ⟨"b", "05", "", "", "", 1, 0⟩]).headI.difficulty)) ∧
      List.Pairwise
        (fun a b : Challenge => a.discovered_at ≤ b.discovered_at)
        ((sortByDiscovered [⟨"a", "03", "", "", "", 0, 0⟩,
          ⟨"b", "05", "", "", "", 1, 0⟩]).filter
          (fun c => !(hexToNat c.difficulty ==
            hexToNat (sortByDiscovered [⟨"a", "03", "", "", "", 0, 0⟩,
              ⟨"b", "05", "", "", "", 1, 0⟩]).headI.difficulty)))) :=
  C4_order_amended
    [⟨"a", "03", "", "", "", 0, 0⟩, ⟨"b", "05", "", "", "", 1, 0⟩]
    (sortByDiscovered [⟨"a", "03", "", "", "", 0, 0⟩,
      ⟨"b", "05", "", "", "", 1, 0⟩])
    (hexToNat (sortByDiscovered [⟨"a", "03", "", "", "", 0, 0⟩,
      ⟨"b", "05", "", "", "", 1, 0⟩]).headI.difficulty)
    (by decide) (by decide) rfl rfl

/-- C5 counterexample: the miner manager's mining loop performs the CPU
worker's wallet operations under pool id `"cpu_0"` (file
`wallets_cpu_0.json`), not under the shared pool id `"cpu"` (file
`wallets_cpu.json`). -/
theorem C5_counterexample :
    managerCpuDispatchPoolId 0 ≠ PoolId.name "cpu" ∧
    managerResponsePoolId WorkerType.cpu 0 ≠ PoolId.name "cpu" ∧
    poolFilePath (managerCpuDispatchPoolId 0) = "wallets_cpu_0.json" ∧
    poolFilePath (PoolId.name "cpu") = "wallets_cpu.json" := by
  refine ⟨?_, ?_, rfl, rfl⟩ <;> decide

/-- C5 (amended): the coordinator path (`dispatch_job` and
`ResponseProcessor.process_response`) uses the shared pool id `"cpu"` for
every CPU worker, independent of the worker index; the miner manager's
`_manage_mining` loop instead derives a per-worker pool id `"cpu_{i}"`
for both dispatch and response handling. -/
theorem C5_cpu_pool_id_amended (workerId : Nat) :
    dispatchPoolId WorkerType.cpu workerId = PoolId.name "cpu" ∧
    responseProcessorPoolId WorkerType.cpu workerId = PoolId.name "cpu" ∧
    poolFilePath (dispatchPoolId WorkerType.cpu workerId) =
      "wallets_cpu.json" ∧
    dispatchPoolId WorkerType.gpu workerId = PoolId.gpu workerId ∧
    managerCpuDispatchPoolId workerId =
      PoolId.name ("cpu_" ++ toString workerId) ∧
    managerCpuDispatchPoolId workerId ≠ PoolId.name "cpu" ∧
    managerResponsePoolId WorkerType.cpu workerId ≠ PoolId.name "cpu" := by
  have hlen : ("cpu_" ++ toString workerId) ≠ "cpu" := by
    intro heq
    have hl := congrArg String.length heq
    rw [String.length_append] at hl
    have h4 : ("cpu_" : String).length = 4 := rfl
    have h3 : ("cpu" : String).length = 3 := rfl
    rw [h4, h3] at hl
    omega
  refine ⟨rfl, rfl, rfl, rfl, rfl, ?_, ?_⟩
  · intro h
    exact hlen (by injection h)
  · intro h
    exact hlen (by injection h)

/-- Witness for the amended C5 at worker index 3. -/
theorem C5_cpu_pool_id_amended_witness :
    dispatchPoolId WorkerType.cpu 3 = PoolId.name "cpu" ∧
    responseProcessorPoolId WorkerType.cpu 3 = PoolId.name "cpu" ∧
    poolFilePath (dispatchPoolId WorkerType.cpu 3) = "wallets_cpu.json" ∧
    dispatchPoolId WorkerType.gpu 3 = PoolId.gpu 3 ∧
    managerCpuDispatchPoolId 3 = PoolId.name ("cpu_" ++ toString 3) ∧
    managerCpuDispatchPoolId 3 ≠ PoolId.name "cpu" ∧
    managerResponsePoolId WorkerType.cpu 3 ≠ PoolId.name "cpu" :=
  C5_cpu_pool_id_amended 3

/-- C6 counterexample: a failed solution persisted at time 0 is still in
the store 25 hours later — nothing prunes it while the process runs — and
`get_pending_retries` returns it although its age exceeds 24 hours. -/
theorem C6_counterexample :
    getPendingRetries (25 * hourSeconds)
        (addFailedSolution 0 "w1" "c1" "n1" "01" false []) =
      addFailedSolution 0 "w1" "c1" "n1" "01" false [] ∧
    ∀ s ∈ addFailedSolution 0 "w1" "c1" "n1" "01" false [],
      24 * hourSeconds < 25 * hourSeconds - s.timestamp := by
  decide

/-- C6 (amended): entries older than 24 hours are discarded only when the
persistent store is loaded from disk (`_load_failed_solutions`); after
loading, no operation prunes by age, and `get_pending_retries` filters
solely on the one-hour retry interval, returning every stored entry whose
`last_retry` is absent or at least one hour old, regardless of the
entry's age. -/
theorem C6_retention_amended (now : Int) (data fs : List FailedSolution) :
    (∀ s ∈ loadFailedSolutions now data,
      now - s.timestamp < 24 * hourSeconds) ∧
    (∀ s, s ∈ getPendingRetries now fs ↔
      s ∈ fs ∧ (s.last_retry = none ∨
        ∃ lastRetry, s.last_retry = some lastRetry ∧
          hourSeconds ≤ now - lastRetry)) := by
  constructor
  · intro s hs
    have hmem := List.mem_filter.1 hs
    have hts := hmem.2
    simp only [decide_eq_true_eq, solutionRetryExpiryHours] at hts
    omega
  · intro s
    rw [getPendingRetries, List.mem_filter]
    constructor
    · rintro ⟨hmem, hdue⟩
      refine ⟨hmem, ?_⟩
      unfold dueForRetry at hdue
      rcases hlr : s.last_retry with _ | lastRetry
      · exact Or.inl rfl
      · rw [hlr] at hdue
        refine Or.inr ⟨lastRetry, rfl, ?_⟩
        simp only [Bool.not_eq_true', decide_eq_false_iff_not,
          solutionRetryIntervalHours] at hdue
        omega
    · rintro ⟨hmem, hdue⟩
      refine ⟨hmem, ?_⟩
      unfold dueForRetry
      rcases hdue with hnone | ⟨lastRetry, hlr, hge⟩
      · rw [hnone]
      · rw [hlr]
        simp only [Bool.not_eq_true', decide_eq_false_iff_not,
          solutionRetryIntervalHours]
        omega

/-- Witness for the amended C6 at a concrete store. -/
theorem C6_retention_amended_witness :
    ((10 : Int) - 5 < 24 * hourSeconds) ∧
    (⟨"w1", "c1", "n1", "01", false, 5, 0, none⟩ ∈
      getPendingRetries 10 [⟨"w1", "c1", "n1", "01", false, 5, 0, none⟩] ↔
      (⟨"w1", "c1", "n1", "01", false, 5, 0, none⟩ : FailedSolution) ∈
        [(⟨"w1", "c1", "n1", "01", false, 5, 0, none⟩ : FailedSolution)] ∧
      ((⟨"w1", "c1", "n1", "01", false, 5, 0, none⟩ :
          FailedSolution).last_retry = none ∨
        ∃ lastRetry, (⟨"w1", "c1", "n1", "01", false, 5, 0, none⟩ :
          FailedSolution).last_retry = some lastRetry ∧
          hourSeconds ≤ 10 - lastRetry)) :=
  ⟨(C6_retention_amended 10 [⟨"w1", "c1", "n1", "01", false, 5, 0, none⟩]
      []).1 ⟨"w1", "c1", "n1", "01", false, 5, 0, none⟩ (by decide),
    (C6_retention_amended 10 []
      [⟨"w1", "c1", "n1", "01", false, 5, 0, none⟩]).2
      ⟨"w1", "c1", "n1", "01", false, 5, 0, none⟩⟩

/-- C7: `allocate_wallet` performs a pure first-match selection: the
allocation condition is exactly `is_dev_wallet == require_dev`,
`in_use == false` and `challenge_id ∉ solved_challenges`; when some wallet
qualifies, the first one in file order is marked in use with the current
challenge and allocation time and the pool is persisted with only that
wallet changed; when none qualifies the result is `None` and the pool is
unchanged. -/
theorem C7_allocate_wallet_first_match (now : Int) (cid : String)
    (rd : Bool) (pool : List Wallet) :
    (∀ w : Wallet, allocOk rd cid w = true ↔
      (w.is_dev_wallet = rd ∧ w.in_use = false ∧
        cid ∉ w.solved_challenges)) ∧
    ((∀ w ∈ pool, allocOk rd cid w = false) →
      allocateWallet now cid rd pool = (none, pool)) ∧
    (∀ pre w post, pool = pre ++ w :: post →
      (∀ v ∈ pre, allocOk rd cid v = false) →
      allocOk rd cid w = true →
      allocateWallet now cid rd pool =
        (some (markAllocated now cid w),
          pre ++ markAllocated now cid w :: post)) := by
  refine ⟨?_, ?_, ?_⟩
  · intro w
    constructor
    · intro h
      simp only [allocOk, Bool.and_eq_true, beq_iff_eq,
        Bool.not_eq_true'] at h
      refine ⟨h.1.1, h.2, ?_⟩
      intro hmem
      have hcon := h.1.2
      simp at hcon
      exact hcon hmem
    · rintro ⟨hdev, huse, hsolved⟩
      simp only [allocOk, Bool.and_eq_true, beq_iff_eq,
        Bool.not_eq_true']
      refine ⟨⟨hdev, ?_⟩, huse⟩
      simpa using hsolved
  · intro h
    exact allocateWallet_none_eq now cid rd pool
      ((allocateWallet_none_iff now cid rd pool).2 h)
  · intro pre w post hpool hpre hw
    subst hpool
    rw [allocateWallet_append now cid rd pre _ hpre]
    simp [allocateWallet_cons_eq, hw]

/-- Witness for C7: a pool whose first wallet is in use and whose second
wallet qualifies. -/
theorem C7_allocate_wallet_first_match_witness :
    (∀ w : Wallet, allocOk false "c1" w = true ↔
      (w.is_dev_wallet = false ∧ w.in_use = false ∧
        "c1" ∉ w.solved_challenges)) ∧
    ((∀ w ∈ ([⟨"a1", "p", "s", "g", 0, false, false, true, some "c1",
        some 0, []⟩] : List Wallet), allocOk false "c1" w = false) →
      allocateWallet 7 "c1" false
          [⟨"a1", "p", "s", "g", 0, false, false, true, some "c1",
            some 0, []⟩] =
        (none, [⟨"a1", "p", "s", "g", 0, false, false, true, some "c1",
          some 0, []⟩])) ∧
    (∀ pre w post,
      ([⟨"a1", "p", "s", "g", 0, false, false, true, some "c1",
        some 0, []⟩] : List Wallet) = pre ++ w :: post →
      (∀ v ∈ pre, allocOk false "c1" v = false) →
      allocOk false "c1" w = true →
      allocateWallet 7 "c1" false
          [⟨"a1", "p", "s", "g", 0, false, false, true, some "c1",
            some 0, []⟩] =
        (some (markAllocated 7 "c1" w),
          pre ++ markAllocated 7 "c1" w :: post)) :=
  C7_allocate_wallet_first_match 7 "c1" false
    [⟨"a1", "p", "s", "g", 0, false, false, true, some "c1", some 0, []⟩]

/-- C8 counterexample: a transient submission processed at time 1 is
retained with `created_at` moved to 300, yet the very next pass at time 2
— one second later — attempts it again: the 300-second figure never
delays an attempt. -/
theorem C8_counterexample :
    (processQueueStep 1 (fun _ => HttpResult.netError)
        [mkSubmission 0 "w" "c" "n"]).1 =
      [{ mkSubmission 0 "w" "c" "n" with
          attempts := 1
          created_at := 300 }] ∧
    (processQueueStep 2 (fun _ => HttpResult.netError)
        ((processQueueStep 1 (fun _ => HttpResult.netError)
          [mkSubmission 0 "w" "c" "n"]).1)).2 =
      [{ mkSubmission 0 "w" "c" "n" with
          attempts := 2
          created_at := 300 }] := by
  decide

/-- C8 (amended): on each pass of the submission-queue loop, entries
older than `retry_hours` (24 h) are discarded without an attempt; every
other entry is attempted; successful and fatal (HTTP 400/409) entries are
dropped; transient entries are retained with `created_at` advanced by
exactly 300 s — which extends their expiry window but does not delay the
next attempt, since every retained entry is attempted again on the very
next pass. -/
theorem C8_queue_step_amended (now : Int)
    (submit : Submission → HttpResult) (q : List Submission) :
    (processQueueStep now submit q).2 =
      (q.filter (fun s => !submissionExpired now s)).map bumpAttempt ∧
    (processQueueStep now submit q).1 =
      (((q.filter (fun s => !submissionExpired now s)).map
        bumpAttempt).filter (submissionTransient submit)).map
        (fun s => { s with
          created_at := s.created_at + queueRetryDelaySeconds }) ∧
    (∀ status : Nat,
      (classifySubmission (HttpResult.httpError status)).2 = true ↔
        (status = 400 ∨ status = 409)) ∧
    classifySubmission HttpResult.ok = (true, false) := by
  refine ⟨?_, ?_, ?_, rfl⟩
  · induction q with
    | nil => rfl
    | cons s rest ih =>
      by_cases hexp' : queueRetryHours * hourSeconds < now - s.created_at
      · have hexp0 : submissionExpired now s = true := by
          simp [submissionExpired, hexp']
        simp [processQueueStep, if_pos hexp', List.filter_cons, hexp0, ih]
      · have hexp0 : submissionExpired now s = false := by
          simp [submissionExpired, hexp']
        rcases hcl : classifySubmission
            (submit { s with attempts := s.attempts + 1 }) with ⟨succ, fatal⟩
        rcases succ with _ | _ <;> rcases fatal with _ | _ <;>
          simp [processQueueStep, if_neg hexp', hcl, List.filter_cons,
            hexp0, bumpAttempt, ih]
  · induction q with
    | nil => rfl
    | cons s rest ih =>
      by_cases hexp' : queueRetryHours * hourSeconds < now - s.created_at
      · have hexp0 : submissionExpired now s = true := by
          simp [submissionExpired, hexp']
        simp [processQueueStep, if_pos hexp', List.filter_cons, hexp0, ih]
      · have hexp0 : submissionExpired now s = false := by
          simp [submissionExpired, hexp']
        rcases hcl : classifySubmission
            (submit { s with attempts := s.attempts + 1 }) with ⟨succ, fatal⟩
        rcases succ with _ | _ <;> rcases fatal with _ | _ <;>
          simp [processQueueStep, if_neg hexp', hcl, List.filter_cons,
            hexp0, bumpAttempt, submissionTransient, ih, sub_sub_cancel]
  · intro status
    by_cases h4 : status = 400
    · simp [classifySubmission, h4]
    · by_cases h9 : status = 409
      · simp [classifySubmission, h9]
      · have hb4 : (status == 400) = false := by simpa using h4
        have hb9 : (status == 409) = false := by simpa using h9
        simp [classifySubmission, hb4, hb9, h4, h9]

/-- C9: registering the same challenge twice leaves the cache unchanged
(in particular its size), and every entry an insertion adds carries
`expires_at = discovered_at + 24h`, both stamped at insertion time. -/
theorem C9_register_challenge_idempotent (now1 now2 : Int)
    (cache : List Challenge) (ch : Challenge) :
    registerChallenge now2 (registerChallenge now1 cache ch) ch =
      registerChallenge now1 cache ch ∧
    (registerChallenge now2 (registerChallenge now1 cache ch) ch).length =
      (registerChallenge now1 cache ch).length ∧
    (∀ e ∈ registerChallenge now1 cache ch, e ∉ cache →
      e.discovered_at = now1 ∧
      e.expires_at = e.discovered_at + 24 * hourSeconds) := by
  by_cases h : (cache.any
      (fun c => c.challenge_id == ch.challenge_id)) = true
  · refine ⟨?_, ?_, ?_⟩
    · simp [registerChallenge, h]
    · simp [registerChallenge, h]
    · intro e he hne
      simp only [registerChallenge, h, if_true] at he
      exact absurd he hne
  · have h' : (cache.any
        (fun c => c.challenge_id == ch.challenge_id)) = false := by
      revert h
      cases cache.any (fun c => c.challenge_id == ch.challenge_id) <;> simp
    have hreg : registerChallenge now1 cache ch =
        cache ++ [{ ch with discovered_at := now1, expires_at := now1 + 24 * hourSeconds }] := by
      simp [registerChallenge, h']
    have hany2 : ((cache ++ [{ ch with discovered_at := now1, expires_at := now1 + 24 * hourSeconds }]).any
          (fun c => c.challenge_id == ch.challenge_id)) = true := by
      simp
    refine ⟨?_, ?_, ?_⟩
    · rw [hreg]
      simp [registerChallenge, hany2]
    · rw [hreg]
      simp [registerChallenge, hany2]
    · intro e he hne
      rw [hreg] at he
      rcases List.mem_append.1 he with hin | hin
      · exact absurd hin hne
      · have he' : e = { ch with discovered_at := now1, expires_at := now1 + 24 * hourSeconds } := by
          simpa using hin
        subst he'
        exact ⟨rfl, rfl⟩

/-- Witness for C9 at a fresh challenge over an empty cache. -/
theorem C9_register_challenge_idempotent_witness :
    registerChallenge 9 (registerChallenge 4 []
        ⟨"c1", "01", "r", "", "", 0, 0⟩) ⟨"c1", "01", "r", "", "", 0, 0⟩ =
      registerChallenge 4 [] ⟨"c1", "01", "r", "", "", 0, 0⟩ ∧
    (registerChallenge 9 (registerChallenge 4 []
        ⟨"c1", "01", "r", "", "", 0, 0⟩)
        ⟨"c1", "01", "r", "", "", 0, 0⟩).length =
      (registerChallenge 4 [] ⟨"c1", "01", "r", "", "", 0, 0⟩).length ∧
    (⟨"c1", "01", "r", "", "", 4, 4 + 24 * hourSeconds⟩ ∈
        registerChallenge 4 [] ⟨"c1", "01", "r", "", "", 0, 0⟩ →
      True) ∧
    (∀ e ∈ registerChallenge 4 [] ⟨"c1", "01", "r", "", "", 0, 0⟩,
      e ∉ ([] : List Challenge) →
      e.discovered_at = 4 ∧
      e.expires_at = e.discovered_at + 24 * hourSeconds) := by
  obtain ⟨h1, h2, h3⟩ := C9_register_challenge_idempotent 4 9 []
    ⟨"c1", "01", "r", "", "", 0, 0⟩
  exact ⟨h1, h2, fun _ => trivial, h3⟩

/-- `release_wallet` walks past wallets with a different address. -/
theorem releaseWallet_skip_front (addr : String)
    (cidOpt : Option String) (solved : Bool) (pre rest : List Wallet)
    (hpre : ∀ v ∈ pre, (v.address == addr) = false) :
    releaseWallet addr cidOpt solved (pre ++ rest) =
      pre ++ releaseWallet addr cidOpt solved rest := by
  induction pre with
  | nil => rfl
  | cons v vs ih =>
    have hv := hpre v (by simp)
    simp [releaseWallet, hv, ih (fun u hu => hpre u (by simp [hu]))]

/-- C10: `release_wallet(addr, cid, solved=true)` clears `in_use` and
`current_challenge` on the first wallet with the given address, appends
the challenge id to its `solved_challenges` only when absent, and is
therefore idempotent: a second identical release changes nothing. -/
theorem C10_release_solved_idempotent (pool : List Wallet)
    (addr cid : String) :
    releaseWallet addr (some cid) true
        (releaseWallet addr (some cid) true pool) =
      releaseWallet addr (some cid) true pool ∧
    (∀ pre w post, pool = pre ++ w :: post →
      (∀ v ∈ pre, (v.address == addr) = false) →
      (w.address == addr) = true →
      releaseWallet addr (some cid) true pool =
        pre ++ { w with
          in_use := false
          current_challenge := none
          solved_challenges :=
            if w.solved_challenges.contains cid then w.solved_challenges
            else w.solved_challenges ++ [cid] } :: post) := by
  constructor
  · induction pool with
    | nil => rfl
    | cons v vs ih =>
      by_cases hv : (v.address == addr) = true
      · by_cases hcm : cid ∈ v.solved_challenges
        · simp [releaseWallet, hv, hcm]
        · simp [releaseWallet, hv, hcm]
      · have hv' : (v.address == addr) = false := by
          revert hv; cases v.address == addr <;> simp
        simp [releaseWallet, hv', ih]
  · intro pre w post hpool hpre hw
    subst hpool
    rw [releaseWallet_skip_front addr (some cid) true pre _ hpre]
    by_cases hcm : cid ∈ w.solved_challenges
    · simp [releaseWallet, hw, hcm]
    · simp [releaseWallet, hw, hcm]

/-- Witness for C10 on a one-wallet pool. -/
theorem C10_release_solved_idempotent_witness :
    releaseWallet "a1" (some "c1") true
        (releaseWallet "a1" (some "c1") true
          [⟨"a1", "p", "s", "g", 0, false, false, true, some "c1",
            some 0, []⟩]) =
      releaseWallet "a1" (some "c1") true
        [⟨"a1", "p", "s", "g", 0, false, false, true, some "c1",
          some 0, []⟩] ∧
    releaseWallet "a1" (some "c1") true
        [⟨"a1", "p", "s", "g", 0, false, false, true, some "c1",
          some 0, []⟩] =
      [] ++ { (⟨"a1", "p", "s", "g", 0, false, false, true, some "c1",
          some 0, []⟩ : Wallet) with
        in_use := false
        current_challenge := none
        solved_challenges :=
          if ([] : List String).contains "c1" then ([] : List String)
          else [] ++ ["c1"] } :: [] := by
  obtain ⟨h1, h2⟩ := C10_release_solved_idempotent
    [⟨"a1", "p", "s", "g", 0, false, false, true, some "c1", some 0, []⟩]
    "a1" "c1"
  refine ⟨h1, ?_⟩
  have h3 := h2 []
    ⟨"a1", "p", "s", "g", 0, false, false, true, some "c1", some 0, []⟩
    [] rfl (by intro v hv; cases hv) (by decide)
  rw [h3]
